import Mathlib

/-!
# Digital Skills Placement Assessment: quiz session and recommendation engine

A shallow embedding of `src/app.js` (the functions `resetState`, `grade`, `finish`
and `pickArchetype`) together with theorems about it.

Modelling conventions
* JavaScript numbers are exact rationals (`ℚ`); counters and the cap
  `maxRecommendationsPerSeries` are natural numbers.
* Module ids are natural numbers (`q.tags must contain module IDs (numbers)`, app.js:95).
  `String(id)` is injective on them, so an object or `Map` key `String(id)` is represented
  by the id itself.
* A JavaScript object with string keys is an association list in property-creation order
  (`JsObject`); `Object.entries` reorders it the way the language prescribes.
* A `TypeError` raised by dereferencing `undefined` is an explicit failure value.
* DOM rendering is left out; only the values that are rendered are kept.
-/

namespace Quiz

/-! ## Data model (the shape of `data.json`) -/

/-- One answer option of a question. -/
structure Choice where
  text : String
  isCorrect : Bool
  deriving DecidableEq, Repr

/-- A question; `sectionName` is the JavaScript field `section`. -/
structure Question where
  id : Nat
  sectionName : String
  anchor : Bool
  tags : List Nat
  deriving DecidableEq, Repr

/-- The record `DATA.config.sectionThresholds`. -/
structure SectionThresholds where
  foundations : ℚ
  applied : ℚ
  advanced : ℚ
  deriving DecidableEq, Repr

/-- The record `DATA.config`. -/
structure Config where
  anchorWeight : ℚ
  nonAnchorWeight : ℚ
  sectionThresholds : SectionThresholds
  maxRecommendationsPerSeries : Nat
  alwaysStartAIAt : Nat
  deriving DecidableEq, Repr

/-- An element of `DATA.meta.modules`. -/
structure Module where
  id : Nat
  name : String
  series : String
  deriving DecidableEq, Repr

/-- An element of `DATA.meta.archetypes`. -/
structure Archetype where
  id : String
  label : String
  description : String
  mapsTo : List Nat
  deriving DecidableEq, Repr

/-! ## Session state (app.js:2-8) -/

/-- One entry of `state.answers`. -/
structure Answer where
  id : Nat
  correct : Bool
  deriving DecidableEq, Repr

/-- The record kept per section: `{correct, total}`. -/
structure SectionCount where
  correct : Nat
  total : Nat
  deriving DecidableEq, Repr

/-- The object `state.sectionCounts`, which has exactly these four own keys. -/
structure SectionCounts where
  Foundations : SectionCount
  Applied : SectionCount
  Advanced : SectionCount
  Specialized : SectionCount
  deriving DecidableEq, Repr

/-- A JavaScript object whose keys are `String(id)` for natural numbers `id`:
the properties in creation order. -/
abbrev JsObject := List (Nat × ℚ)

/-- The global `state`. -/
structure State where
  idx : Nat
  answers : List Answer
  moduleNeeds : JsObject
  sectionCounts : SectionCounts
  deriving DecidableEq, Repr

/-- Property read `o[String(k)]`; `none` is `undefined`. -/
def JsObject.get (o : JsObject) (k : Nat) : Option ℚ :=
  match o with
  | [] => none
  | (k1, v1) :: rest => if k1 = k then some v1 else JsObject.get rest k

/-- Property write `o[String(k)] = v`: an existing property keeps its place, a new one is
created after all the others. -/
def JsObject.set (o : JsObject) (k : Nat) (v : ℚ) : JsObject :=
  match o with
  | [] => [(k, v)]
  | (k1, v1) :: rest => if k1 = k then (k, v) :: rest else (k1, v1) :: JsObject.set rest k v

/-- Evaluation of `x || 0` for a number or `undefined`: both `undefined` and `0` give `0`. -/
def orZero (x : Option ℚ) : ℚ :=
  match x with
  | none => 0
  | some v => v

/-- Lines 40-47, `resetState`: the value assigned to `state`. -/
def resetState : State :=
  { idx := 0
    answers := []
    moduleNeeds := []
    sectionCounts :=
      { Foundations := ⟨0, 0⟩, Applied := ⟨0, 0⟩, Advanced := ⟨0, 0⟩, Specialized := ⟨0, 0⟩ } }

/-- Property read `state.sectionCounts[name]`; `none` is `undefined`.  Names that resolve
through `Object.prototype` (such as `constructor`) are not modelled. -/
def SectionCounts.get (sc : SectionCounts) (name : String) : Option SectionCount :=
  if name = "Foundations" then some sc.Foundations
  else if name = "Applied" then some sc.Applied
  else if name = "Advanced" then some sc.Advanced
  else if name = "Specialized" then some sc.Specialized
  else none

/-- Replace the record stored under one of the four keys (the in-place `+=` of lines 87-89
mutates that record). -/
def SectionCounts.put (sc : SectionCounts) (name : String) (c : SectionCount) : SectionCounts :=
  if name = "Foundations" then { sc with Foundations := c }
  else if name = "Applied" then { sc with Applied := c }
  else if name = "Advanced" then { sc with Advanced := c }
  else if name = "Specialized" then { sc with Specialized := c }
  else sc

/-- Lines 96-99: `q.tags.forEach(mId => moduleNeeds[mId] = (moduleNeeds[mId] || 0) + weight)`. -/
def addNeeds (needs : JsObject) (tags : List Nat) (weight : ℚ) : JsObject :=
  tags.foldl (fun o mId => o.set mId (orZero (o.get mId) + weight)) needs

/-- Lines 81-100, `grade(q, choice, _)`, the part that updates `state`.
`Except.error s` means that a `TypeError` was raised (the section name is not a key of
`sectionCounts`), leaving the session as `s`: the answer had already been pushed. -/
def grade (cfg : Config) (state : State) (q : Question) (choice : Choice) :
    Except State State :=
  let correct := choice.isCorrect
  let s1 := { state with answers := state.answers ++ [Answer.mk q.id correct] }
  match s1.sectionCounts.get q.sectionName with
  | none => .error s1
  | some c =>
    let c1 : SectionCount := { c with total := c.total + 1 }
    let c2 : SectionCount := if correct then { c1 with correct := c1.correct + 1 } else c1
    let s2 := { s1 with sectionCounts := s1.sectionCounts.put q.sectionName c2 }
    if !correct then
      let weight := if q.anchor then cfg.anchorWeight else cfg.nonAnchorWeight
      .ok { s2 with moduleNeeds := addNeeds s2.moduleNeeds q.tags weight }
    else
      .ok s2

/-- A run of the session: the questions are graded one after the other with the chosen
options, stopping at the first `TypeError`. -/
def gradeAll (cfg : Config) (state : State) : List (Question × Choice) → Except State State
  | [] => .ok state
  | (q, c) :: rest =>
    match grade cfg state q c with
    | .ok s => gradeAll cfg s rest
    | .error s => .error s

/-! ## The recommendation engine (app.js:126-265) -/

/-- The record `DATA.meta`. -/
structure DataMeta where
  modules : List Module
  archetypes : List Archetype
  deriving DecidableEq, Repr

/-- A recommended module: the object `{...module, score}` of lines 166 and 170. -/
structure ScoredModule extends Module where
  score : ℚ
  deriving DecidableEq, Repr

/-- Line 132: `pct = s => s.total ? (s.correct / s.total) : 0`. -/
def pct (s : SectionCount) : ℚ :=
  if s.total ≠ 0 then (s.correct : ℚ) / (s.total : ℚ) else 0

/-- Lines 139-145: the array `seriesToConsider` after the three conditional pushes. -/
def seriesToConsider (cfg : Config) (sections : SectionCounts) : List String :=
  let s0 : List String := []
  let s1 := if pct sections.Foundations < cfg.sectionThresholds.foundations
    then s0 ++ ["Basic"] else s0
  let s2 := if pct sections.Applied < cfg.sectionThresholds.applied
    then s1 ++ ["Advanced"] else s1
  let s3 := if pct sections.Advanced < cfg.sectionThresholds.advanced
    then s2 ++ ["AI/Specialized"] else s2
  s3

/-- A key `String(k)` is an array index when `k` is at most `2^32 - 2`. -/
def isArrayIndex (k : Nat) : Bool := decide (k < 4294967295)

/-- The language-defined order of `Object.entries(o)`: first the array-index keys in
ascending numeric order, then the remaining keys in creation order. -/
def objectEntries (o : JsObject) : List (Nat × ℚ) :=
  List.insertionSort (fun a b => a.1 ≤ b.1) (o.filter (fun e => isArrayIndex e.1))
    ++ o.filter (fun e => !isArrayIndex e.1)

/-- Line 149: `Object.entries(state.moduleNeeds).sort((a,b) => b[1]-a[1])`.
`Array.prototype.sort` is stable; with this comparator `a` stays in front of `b` when
`b[1] ≤ a[1]`.  Every stable sort returns the same array, here computed by insertion. -/
def sortedNeeds (needs : JsObject) : List (Nat × ℚ) :=
  List.insertionSort (fun a b => b.2 ≤ a.2) (objectEntries needs)

/-- Line 150 with `moduleMap.get(String(id))`: a `Map` built from `[String(m.id), m]` pairs
keeps, for a repeated key, the last value. -/
def moduleMapGet (modules : List Module) (id : Nat) : Option Module :=
  modules.foldl (fun found m => if m.id = id then some m else found) none

/-- The local variables mutated by the loop of lines 157-173. -/
structure Recs where
  primaryRecommendations : List ScoredModule
  secondaryRecommendations : List ScoredModule
  currentPrimaryCount : Nat
  deriving DecidableEq, Repr

/-- Lines 157-173, `sortedNeeds.forEach(...)`.  `none` means that `module.series` raised a
`TypeError` because `moduleMap.get(id)` was `undefined`. -/
def rankLoop (cfg : Config) (series : List String) (modules : List Module) :
    List (Nat × ℚ) → Recs → Option Recs
  | [], acc => some acc
  | (id, score) :: rest, acc =>
    match moduleMapGet modules id with
    | none => none
    | some module =>
      let moduleSeriesType := if module.series = "AI" then "AI/Specialized" else module.series
      if series.contains moduleSeriesType then
        if acc.currentPrimaryCount < cfg.maxRecommendationsPerSeries then
          rankLoop cfg series modules rest
            { acc with
              primaryRecommendations := acc.primaryRecommendations ++ [{ module with score := score }]
              currentPrimaryCount := acc.currentPrimaryCount + 1 }
        else if acc.secondaryRecommendations.length < cfg.maxRecommendationsPerSeries then
          rankLoop cfg series modules rest
            { acc with
              secondaryRecommendations :=
                acc.secondaryRecommendations ++ [{ module with score := score }] }
        else rankLoop cfg series modules rest acc
      else rankLoop cfg series modules rest acc

/-- Lines 267-284, `pickArchetype(allRecommendedModuleIds)`; `none` is `undefined`. -/
def pickArchetype (arcs : List Archetype) : List Nat → Option Archetype
  | [] =>
    match arcs.find? (fun a => a.id = "asker-of-why") with
    | some askerOfWhy => some askerOfWhy
    | none => arcs.head?
  | moduleId :: rest =>
    match arcs.find? (fun a => a.mapsTo.contains moduleId) with
    | some matchingArchetype => some matchingArchetype
    | none => pickArchetype arcs rest

/-- The values of the local variables of `finish` when line 202 has been executed. -/
structure Recommendation where
  foundationsPct : ℚ
  appliedPct : ℚ
  advancedPct : ℚ
  seriesToConsider : List String
  sortedNeeds : List (Nat × ℚ)
  primaryRecommendations : List ScoredModule
  secondaryRecommendations : List ScoredModule
  mandatoryAI : Option Module
  allRecommendedModuleIds : List Nat
  archetype : Option Archetype
  deriving DecidableEq, Repr

/-- Lines 130-202 of `finish`.  `none` means that the loop raised a `TypeError`. -/
def recommend (cfg : Config) (meta : DataMeta) (state : State) : Option Recommendation :=
  let sections := state.sectionCounts
  let foundationsPct := pct sections.Foundations
  let appliedPct := pct sections.Applied
  let advancedPct := pct sections.Advanced
  let series := seriesToConsider cfg sections
  let sorted := sortedNeeds state.moduleNeeds
  match rankLoop cfg series meta.modules sorted ⟨[], [], 0⟩ with
  | none => none
  | some recs =>
    let primaryRecommendations := recs.primaryRecommendations
    let ai101Id := cfg.alwaysStartAIAt
    let ai101 := moduleMapGet meta.modules ai101Id
    let isAIRecommended := series.contains "AI/Specialized"
    let hasAI101InPrimary := primaryRecommendations.any (fun m => m.id = ai101Id)
    let hasAI101InSecondary := recs.secondaryRecommendations.any (fun m => m.id = ai101Id)
    let mandatoryAI0 : Option Module :=
      if isAIRecommended && !hasAI101InPrimary && !hasAI101InSecondary then ai101 else none
    let secondaryRecommendations :=
      if hasAI101InPrimary then recs.secondaryRecommendations.filter (fun m => m.id ≠ ai101Id)
      else recs.secondaryRecommendations
    let mandatoryAI : Option Module := if hasAI101InSecondary then none else mandatoryAI0
    let primaryModuleIds := primaryRecommendations.map (fun m => m.id)
    let ids0 := primaryModuleIds ++ secondaryRecommendations.map (fun m => m.id)
    let allRecommendedModuleIds :=
      match mandatoryAI with
      | some m => ids0 ++ [m.id]
      | none => ids0
    some
      { foundationsPct := foundationsPct
        appliedPct := appliedPct
        advancedPct := advancedPct
        seriesToConsider := series
        sortedNeeds := sorted
        primaryRecommendations := primaryRecommendations
        secondaryRecommendations := secondaryRecommendations
        mandatoryAI := mandatoryAI
        allRecommendedModuleIds := allRecommendedModuleIds
        archetype := pickArchetype meta.archetypes allRecommendedModuleIds }

/-- What `finish` has rendered when it returns. -/
structure Result where
  foundationsPct : ℚ
  appliedPct : ℚ
  advancedPct : ℚ
  seriesToConsider : List String
  primaryRecommendations : List ScoredModule
  secondaryRecommendations : List ScoredModule
  mandatoryAI : Option Module
  archetype : Archetype
  congratulations : Bool
  fallbackPrimary : List (Option Module × ℚ)
  deriving DecidableEq, Repr

/-- Lines 126-265, `finish()`: lines 130-202 followed by the branches of the rendering
code that still assign variables (lines 227-245) and by the dereference
`archetype.label` of line 260.  `none` means that a `TypeError` was raised. -/
def finish (cfg : Config) (meta : DataMeta) (state : State) : Option Result :=
  match recommend cfg meta state with
  | none => none
  | some v =>
    let ai101 := moduleMapGet meta.modules cfg.alwaysStartAIAt
    let noWeakness : Bool := v.primaryRecommendations.length = 0 && v.mandatoryAI.isNone
    let congratulations : Bool :=
      noWeakness && decide (v.advancedPct ≥ cfg.sectionThresholds.advanced)
    let mandatoryAI := if congratulations then ai101 else v.mandatoryAI
    let fallbackPrimary : List (Option Module × ℚ) :=
      if noWeakness && !congratulations then
        (v.sortedNeeds.take cfg.maxRecommendationsPerSeries).map
          (fun e => (moduleMapGet meta.modules e.1, e.2))
      else []
    match v.archetype with
    | none => none
    | some archetype =>
      some
        { foundationsPct := v.foundationsPct
          appliedPct := v.appliedPct
          advancedPct := v.advancedPct
          seriesToConsider := v.seriesToConsider
          primaryRecommendations := v.primaryRecommendations
          secondaryRecommendations := v.secondaryRecommendations
          mandatoryAI := mandatoryAI
          archetype := archetype
          congratulations := congratulations
          fallbackPrimary := fallbackPrimary }

/-- The four own keys of `state.sectionCounts`. -/
def sectionNames : List String := ["Foundations", "Applied", "Advanced", "Specialized"]

/-- The need-ranked list restricted to the gated series, as the specification words it:
every ranked entry is paired with its module, and only the modules whose filtering series
(`AI` read as `AI/Specialized`) is in `series` are kept. -/
def gatedRanking (series : List String) (modules : List Module) (ranked : List (Nat × ℚ)) :
    List ScoredModule :=
  (ranked.filterMap (fun e =>
      (moduleMapGet modules e.1).map (fun m => ({ m with score := e.2 } : ScoredModule)))).filter
    (fun sm => series.contains (if sm.series = "AI" then "AI/Specialized" else sm.series))

/-! ## A small dataset used to instantiate the theorems -/

/-- Weights 2 and 1, thresholds 0.7, at most three recommendations, AI entry module 11. -/
def sampleConfig : Config :=
  { anchorWeight := 2
    nonAnchorWeight := 1
    sectionThresholds := { foundations := 7 / 10, applied := 7 / 10, advanced := 7 / 10 }
    maxRecommendationsPerSeries := 3
    alwaysStartAIAt := 11 }

/-- Three modules and two archetypes. -/
def sampleMeta : DataMeta :=
  { modules := [⟨2, "Spreadsheets", "Advanced"⟩, ⟨5, "Dashboards", "Advanced"⟩,
      ⟨11, "AI 101", "AI"⟩]
    archetypes := [⟨"pathfinder", "Pathfinder", "Starts with AI", [11]⟩,
      ⟨"asker-of-why", "Asker of Why", "Asks why", []⟩] }

/-- A wrong and a right option. -/
def wrongChoice : Choice := ⟨"no", false⟩

/-- See `wrongChoice`. -/
def rightChoice : Choice := ⟨"yes", true⟩

/-- A run: two Applied questions answered wrongly (tagged 5, then 2), one Foundations
question answered correctly. -/
def sampleRun : List (Question × Choice) :=
  [(⟨1, "Applied", false, [5]⟩, wrongChoice), (⟨2, "Applied", false, [2]⟩, wrongChoice),
   (⟨3, "Foundations", true, [2]⟩, rightChoice)]

/-- The session state that `sampleRun` leads to. -/
def sampleState : State :=
  { idx := 0
    answers := [⟨1, false⟩, ⟨2, false⟩, ⟨3, true⟩]
    moduleNeeds := [(5, 1), (2, 1)]
    sectionCounts :=
      { Foundations := ⟨1, 1⟩, Applied := ⟨0, 2⟩, Advanced := ⟨0, 0⟩, Specialized := ⟨0, 0⟩ } }

/-- What `finish` renders for `sampleState`. -/
def sampleResult : Result :=
  { foundationsPct := 1
    appliedPct := 0
    advancedPct := 0
    seriesToConsider := ["Advanced", "AI/Specialized"]
    primaryRecommendations :=
      [{ id := 2, name := "Spreadsheets", series := "Advanced", score := 1 },
       { id := 5, name := "Dashboards", series := "Advanced", score := 1 }]
    secondaryRecommendations := []
    mandatoryAI := some ⟨11, "AI 101", "AI"⟩
    archetype := ⟨"pathfinder", "Pathfinder", "Starts with AI", [11]⟩
    congratulations := false
    fallbackPrimary := [] }

/-- The sample configuration with a cap of one recommendation per list. -/
def tightConfig : Config := { sampleConfig with maxRecommendationsPerSeries := 1 }

/-- A run in which the AI entry module 11 collects need: an Applied anchor question tagged 5
and an Advanced question tagged 11, both answered wrongly. -/
def aiRun : List (Question × Choice) :=
  [(⟨1, "Applied", true, [5]⟩, wrongChoice), (⟨2, "Advanced", false, [11]⟩, wrongChoice)]

/-- The session state that `aiRun` leads to. -/
def aiState : State :=
  { idx := 0
    answers := [⟨1, false⟩, ⟨2, false⟩]
    moduleNeeds := [(5, 2), (11, 1)]
    sectionCounts :=
      { Foundations := ⟨0, 0⟩, Applied := ⟨0, 1⟩, Advanced := ⟨0, 1⟩, Specialized := ⟨0, 0⟩ } }

/-- The variables of `finish` at line 202 for `aiState` under `tightConfig`: module 11 is
listed as secondary. -/
def aiRecommendation : Recommendation :=
  { foundationsPct := 0
    appliedPct := 0
    advancedPct := 0
    seriesToConsider := ["Basic", "Advanced", "AI/Specialized"]
    sortedNeeds := [(5, 2), (11, 1)]
    primaryRecommendations := [{ id := 5, name := "Dashboards", series := "Advanced", score := 2 }]
    secondaryRecommendations := [{ id := 11, name := "AI 101", series := "AI", score := 1 }]
    mandatoryAI := none
    allRecommendedModuleIds := [5, 11]
    archetype := some ⟨"pathfinder", "Pathfinder", "Starts with AI", [11]⟩ }

/-- A run with every answer correct: one question in each of the three gating sections. -/
def perfectRun : List (Question × Choice) :=
  [(⟨1, "Foundations", false, [2]⟩, rightChoice), (⟨2, "Applied", true, [5]⟩, rightChoice),
   (⟨3, "Advanced", false, [11]⟩, rightChoice)]

/-- The session state that `perfectRun` leads to. -/
def perfectState : State :=
  { idx := 0
    answers := [⟨1, true⟩, ⟨2, true⟩, ⟨3, true⟩]
    moduleNeeds := []
    sectionCounts :=
      { Foundations := ⟨1, 1⟩, Applied := ⟨1, 1⟩, Advanced := ⟨1, 1⟩, Specialized := ⟨0, 0⟩ } }

/-- What `finish` renders for `perfectState`: the congratulations branch makes module 11
mandatory, the archetype is the fallback one. -/
def perfectResult : Result :=
  { foundationsPct := 1
    appliedPct := 1
    advancedPct := 1
    seriesToConsider := []
    primaryRecommendations := []
    secondaryRecommendations := []
    mandatoryAI := some ⟨11, "AI 101", "AI"⟩
    archetype := ⟨"asker-of-why", "Asker of Why", "Asks why", []⟩
    congratulations := true
    fallbackPrimary := [] }

/-! ## Session control (app.js:49-54 and 120-124) -/

/-- Lines 49-54, `start()`: the session state once `resetState()` has run, whatever the
state was before. -/
def start (_state : State) : State := resetState

/-- Lines 120-124, `next()`: the state after `state.idx += 1`, and whether the test
`state.idx >= DATA.questions.length` sends control to `finish()`. -/
def next (questions : List Question) (state : State) : State × Bool :=
  let s := { state with idx := state.idx + 1 }
  (s, decide (s.idx ≥ questions.length))

/-- The session states that the handlers can produce: `start`, then `grade` (returning or
raising) and `next`, the latter only while the session is not complete. -/
inductive Reachable (cfg : Config) (questions : List Question) : State → Prop
  | started : Reachable cfg questions resetState
  | graded (st st1 : State) (q : Question) (c : Choice) :
      Reachable cfg questions st → grade cfg st q c = .ok st1 → Reachable cfg questions st1
  | gradeRaised (st st1 : State) (q : Question) (c : Choice) :
      Reachable cfg questions st → grade cfg st q c = .error st1 →
      Reachable cfg questions st1
  | advanced (st : State) :
      Reachable cfg questions st → st.idx < questions.length →
      Reachable cfg questions (next questions st).1

/-- The tallies of a session agree with its answers: in each section `correct ≤ total`, the
number of answers is the sum of the four totals, and the number of answers recorded as
correct is the sum of the four `correct` counters. -/
def Tallied (st : State) : Prop :=
  (st.sectionCounts.Foundations.correct ≤ st.sectionCounts.Foundations.total ∧
    st.sectionCounts.Applied.correct ≤ st.sectionCounts.Applied.total ∧
    st.sectionCounts.Advanced.correct ≤ st.sectionCounts.Advanced.total ∧
    st.sectionCounts.Specialized.correct ≤ st.sectionCounts.Specialized.total) ∧
  st.answers.length =
    st.sectionCounts.Foundations.total + st.sectionCounts.Applied.total +
      st.sectionCounts.Advanced.total + st.sectionCounts.Specialized.total ∧
  (st.answers.filter (fun a => a.correct)).length =
    st.sectionCounts.Foundations.correct + st.sectionCounts.Applied.correct +
      st.sectionCounts.Advanced.correct + st.sectionCounts.Specialized.correct

/-- The questions of `sampleRun`. -/
def sampleQuestions : List Question := sampleRun.map Prod.fst

/-- The sample configuration with an AI entry id that no module has. -/
def orphanConfig : Config := { sampleConfig with alwaysStartAIAt := 99 }

/-- What `finish` renders for `perfectState` under `orphanConfig`: no mandatory module. -/
def orphanResult : Result := { perfectResult with mandatoryAI := none }

/-- A run with every answer wrong on questions that carry no tag. -/
def untaggedRun : List (Question × Choice) :=
  [(⟨1, "Foundations", false, []⟩, wrongChoice), (⟨2, "Applied", true, []⟩, wrongChoice),
   (⟨3, "Advanced", false, []⟩, wrongChoice)]

/-- The session state that `untaggedRun` leads to. -/
def untaggedState : State :=
  { idx := 0
    answers := [⟨1, false⟩, ⟨2, false⟩, ⟨3, false⟩]
    moduleNeeds := []
    sectionCounts :=
      { Foundations := ⟨0, 1⟩, Applied := ⟨0, 1⟩, Advanced := ⟨0, 1⟩, Specialized := ⟨0, 0⟩ } }

/-- What `finish` renders for `untaggedState`: module 11 is mandatory and decides the
archetype. -/
def untaggedResult : Result :=
  { foundationsPct := 0
    appliedPct := 0
    advancedPct := 0
    seriesToConsider := ["Basic", "Advanced", "AI/Specialized"]
    primaryRecommendations := []
    secondaryRecommendations := []
    mandatoryAI := some ⟨11, "AI 101", "AI"⟩
    archetype := ⟨"pathfinder", "Pathfinder", "Starts with AI", [11]⟩
    congratulations := false
    fallbackPrimary := [] }

/-- A run of the scenario: one Foundations question answered correctly and three
non-anchor Applied questions tagged 2 answered wrongly. -/
def appliedRun : List (Question × Choice) :=
  [(⟨1, "Foundations", false, [5]⟩, rightChoice), (⟨2, "Applied", false, [2]⟩, wrongChoice),
   (⟨3, "Applied", false, [2]⟩, wrongChoice), (⟨4, "Applied", false, [2]⟩, wrongChoice)]

/-! ## Properties of the session state -/

theorem JsObject.get_set_self (o : JsObject) (k : Nat) (v : ℚ) :
    (o.set k v).get k = some v := by
  induction o with
  | nil => simp [JsObject.set, JsObject.get]
  | cons e rest ih =>
    obtain ⟨k1, v1⟩ := e
    by_cases h : k1 = k
    · simp [JsObject.set, JsObject.get, h]
    · simp [JsObject.set, JsObject.get, h, ih]

theorem JsObject.get_set_of_ne (o : JsObject) (k m : Nat) (v : ℚ) (hkm : k ≠ m) :
    (o.set k v).get m = o.get m := by
  induction o with
  | nil => simp [JsObject.set, JsObject.get, hkm]
  | cons e rest ih =>
    obtain ⟨k1, v1⟩ := e
    by_cases h : k1 = k
    · subst h
      simp [JsObject.set, JsObject.get, hkm]
    · by_cases h2 : k1 = m
      · subst h2
        simp [JsObject.set, JsObject.get, h]
      · simp [JsObject.set, JsObject.get, h, h2, ih]

/-- The need of `m` after the `forEach` of lines 96-99: every occurrence of `m` among the
tags adds the weight once. -/
theorem addNeeds_get (tags : List Nat) (o : JsObject) (w : ℚ) (m : Nat) :
    orZero ((addNeeds o tags w).get m) = orZero (o.get m) + (tags.count m : ℚ) * w := by
  induction tags generalizing o with
  | nil => simp [addNeeds]
  | cons t rest ih =>
    have hstep : addNeeds o (t :: rest) w
        = addNeeds (o.set t (orZero (o.get t) + w)) rest w := by
      simp [addNeeds]
    rw [hstep, ih]
    by_cases htm : t = m
    · subst htm
      rw [JsObject.get_set_self]
      simp [orZero, List.count_cons_self]
      ring
    · rw [JsObject.get_set_of_ne _ _ _ _ htm]
      simp [List.count_cons_of_ne (Ne.symm htm)]

theorem addNeeds_get_none (tags : List Nat) (o : JsObject) (w : ℚ) (m : Nat) :
    (addNeeds o tags w).get m = none ↔ o.get m = none ∧ m ∉ tags := by
  induction tags generalizing o with
  | nil => simp [addNeeds]
  | cons t rest ih =>
    have hstep : addNeeds o (t :: rest) w
        = addNeeds (o.set t (orZero (o.get t) + w)) rest w := by
      simp [addNeeds]
    rw [hstep, ih]
    by_cases htm : t = m
    · subst htm
      simp [JsObject.get_set_self]
    · rw [JsObject.get_set_of_ne _ _ _ _ htm]
      simp only [List.mem_cons, not_or]
      constructor
      · rintro ⟨h1, h2⟩
        exact ⟨h1, fun h => htm h.symm, h2⟩
      · rintro ⟨h1, _, h2⟩
        exact ⟨h1, h2⟩

/-- A successful `grade`: the section is one of the four keys.  The resulting state is
given field by field. -/
theorem grade_of_recognized (cfg : Config) (st : State) (q : Question) (c : Choice)
    (h : q.sectionName ∈ sectionNames) :
    ∃ st1, grade cfg st q c = .ok st1 ∧ st1.idx = st.idx ∧
      st1.answers = st.answers ++ [Answer.mk q.id c.isCorrect] ∧
      st1.moduleNeeds = (if c.isCorrect = true then st.moduleNeeds
        else addNeeds st.moduleNeeds q.tags
          (if q.anchor = true then cfg.anchorWeight else cfg.nonAnchorWeight)) ∧
      ∀ s ∈ sectionNames, ∃ x x1, st.sectionCounts.get s = some x ∧
        st1.sectionCounts.get s = some x1 ∧
        x1.total = x.total + (if q.sectionName = s then 1 else 0) ∧
        x1.correct = x.correct + (if q.sectionName = s ∧ c.isCorrect = true then 1 else 0) := by
  simp only [sectionNames, List.mem_cons, List.mem_singleton, List.not_mem_nil, or_false] at h
  cases hc : c.isCorrect <;>
  rcases h with h | h | h | h <;>
  · refine ⟨_, by simp [grade, SectionCounts.get, h, hc]; rfl, ?_, ?_, ?_, ?_⟩
    · simp
    · simp
    · simp
    · intro s hs
      simp only [sectionNames, List.mem_cons, List.mem_singleton, List.not_mem_nil,
        or_false] at hs
      rcases hs with hs | hs | hs | hs <;>
      · subst hs
        simp [SectionCounts.get, SectionCounts.put, h]

/-- A run over recognised sections never raises; needs and section counters of the final
state are those of the start plus what the graded answers contribute. -/
theorem gradeAll_spec (cfg : Config) (l : List (Question × Choice)) :
    ∀ st : State, (∀ qc ∈ l, qc.1.sectionName ∈ sectionNames) →
    ∃ st1, gradeAll cfg st l = .ok st1 ∧
      (∀ m, orZero (st1.moduleNeeds.get m) = orZero (st.moduleNeeds.get m) +
        (l.map (fun qc => if qc.2.isCorrect = true then 0 else
          (qc.1.tags.count m : ℚ) *
            (if qc.1.anchor = true then cfg.anchorWeight else cfg.nonAnchorWeight))).sum) ∧
      (∀ m, st1.moduleNeeds.get m = none ↔
        (st.moduleNeeds.get m = none ∧ ∀ qc ∈ l, qc.2.isCorrect = false → m ∉ qc.1.tags)) ∧
      ∀ s ∈ sectionNames, ∃ x x1, st.sectionCounts.get s = some x ∧
        st1.sectionCounts.get s = some x1 ∧
        x1.total = x.total + (l.filter (fun qc => qc.1.sectionName = s)).length ∧
        x1.correct = x.correct +
          (l.filter (fun qc => qc.1.sectionName = s ∧ qc.2.isCorrect = true)).length := by
  induction l with
  | nil =>
    intro st _
    refine ⟨st, rfl, by simp, by simp, ?_⟩
    intro s hs
    simp only [sectionNames, List.mem_cons, List.mem_singleton, List.not_mem_nil,
      or_false] at hs
    rcases hs with hs | hs | hs | hs <;>
    · subst hs
      simp [SectionCounts.get]
  | cons qc rest ih =>
    intro st hrec
    obtain ⟨q, c⟩ := qc
    have hq : q.sectionName ∈ sectionNames := hrec (q, c) (List.mem_cons_self _ _)
    obtain ⟨s1, hg, -, -, hneeds, hsec⟩ := grade_of_recognized cfg st q c hq
    obtain ⟨s2, hrun, hsum, hnone, hcnt⟩ :=
      ih s1 (fun x hx => hrec x (List.mem_cons_of_mem _ hx))
    refine ⟨s2, by simp [gradeAll, hg, hrun], ?_, ?_, ?_⟩
    · intro m
      rw [hsum m, hneeds]
      cases hc : c.isCorrect
      · simp only [Bool.false_eq_true, if_false, List.map_cons, List.sum_cons, hc]
        rw [addNeeds_get]
        ring
      · simp [hc]
    · intro m
      rw [hnone m, hneeds]
      cases hc : c.isCorrect
      · simp only [Bool.false_eq_true, if_false, addNeeds_get_none, List.mem_cons,
          forall_eq_or_imp, hc, true_implies]
        tauto
      · simp [hc]
    · intro s hs
      obtain ⟨x, x1, hx, hx1, ht, hcor⟩ := hsec s hs
      obtain ⟨y, y1, hy, hy1, ht2, hcor2⟩ := hcnt s hs
      rw [hx1] at hy
      cases hy
      refine ⟨x, y1, hx, hy1, ?_, ?_⟩
      · rw [ht2, ht]
        by_cases hqs : q.sectionName = s
        · simp [List.filter_cons, hqs]
          omega
        · simp [List.filter_cons, hqs]
      · rw [hcor2, hcor]
        by_cases hqs : q.sectionName = s ∧ c.isCorrect = true
        · simp [List.filter_cons, hqs]; omega
        · have : ¬ (q.sectionName = s ∧ c.isCorrect = true) := hqs
          simp only [hqs, if_false, List.filter_cons]
          simp [this]

theorem sum_count_eq_sum_filter (cfg : Config) (m : Nat) (l : List (Question × Choice))
    (htags : ∀ qc ∈ l, qc.1.tags.Nodup) :
    (l.map (fun qc => if qc.2.isCorrect = true then 0 else
        (qc.1.tags.count m : ℚ) *
          (if qc.1.anchor = true then cfg.anchorWeight else cfg.nonAnchorWeight))).sum
      = ((l.filter (fun qc => qc.2.isCorrect = false ∧ m ∈ qc.1.tags)).map
          (fun qc => if qc.1.anchor = true then cfg.anchorWeight else cfg.nonAnchorWeight)).sum := by
  induction l with
  | nil => simp
  | cons qc rest ih =>
    have ih1 := ih (fun x hx => htags x (List.mem_cons_of_mem _ hx))
    have hnd : qc.1.tags.Nodup := htags qc (List.mem_cons_self _ _)
    rw [List.map_cons, List.sum_cons, ih1, List.filter_cons]
    cases hc : qc.2.isCorrect
    · by_cases hm : m ∈ qc.1.tags
      · simp [hm, List.count_eq_one_of_mem hnd hm]
      · simp [hm, List.count_eq_zero_of_not_mem hm]
    · simp

/-- C1: starting from a freshly reset session, after any run over recognised sections in
which no question repeats a tag, `moduleNeeds[m]` is the sum of the weights (anchor weight
for anchor questions, non-anchor weight otherwise) of the incorrectly answered questions
tagged `m`; the entry is absent exactly when no incorrectly answered question is tagged
`m`; and grading a correct answer leaves `moduleNeeds` unchanged. -/
theorem moduleNeeds_eq_sum_of_wrong_answers (cfg : Config) (l : List (Question × Choice))
    (hsec : ∀ qc ∈ l, qc.1.sectionName ∈ sectionNames)
    (htags : ∀ qc ∈ l, qc.1.tags.Nodup) :
    ∃ st, gradeAll cfg resetState l = .ok st ∧
      (∀ m, orZero (st.moduleNeeds.get m) =
        ((l.filter (fun qc => qc.2.isCorrect = false ∧ m ∈ qc.1.tags)).map
          (fun qc => if qc.1.anchor = true then cfg.anchorWeight
            else cfg.nonAnchorWeight)).sum) ∧
      (∀ m, st.moduleNeeds.get m = none ↔
        ∀ qc ∈ l, qc.2.isCorrect = false → m ∉ qc.1.tags) ∧
      (∀ (s s1 : State) (q : Question) (c : Choice), c.isCorrect = true →
        (grade cfg s q c = .ok s1 ∨ grade cfg s q c = .error s1) →
        s1.moduleNeeds = s.moduleNeeds) := by
  obtain ⟨st, hrun, hsum, hnone, -⟩ := gradeAll_spec cfg l resetState hsec
  refine ⟨st, hrun, ?_, ?_, ?_⟩
  · intro m
    rw [hsum m, sum_count_eq_sum_filter cfg m l htags]
    simp [resetState, JsObject.get, orZero]
  · intro m
    rw [hnone m]
    simp [resetState, JsObject.get]
  · intro s s1 q c hc hg
    unfold grade at hg
    simp only [hc] at hg
    cases hget : s.sectionCounts.get q.sectionName with
    | none =>
      simp only [hget] at hg
      rcases hg with hg | hg
      · cases hg
      · cases hg
        rfl
    | some x =>
      simp only [hget] at hg
      rcases hg with hg | hg
      · simp at hg
        rw [← hg]
      · simp at hg

/-- C1 at `sampleRun`: modules 5 and 2 each carry the need of one wrong non-anchor answer. -/
theorem moduleNeeds_eq_sum_of_wrong_answers_witness :
    ∃ st, gradeAll sampleConfig resetState sampleRun = .ok st ∧
      (∀ m, orZero (st.moduleNeeds.get m) =
        ((sampleRun.filter (fun qc => qc.2.isCorrect = false ∧ m ∈ qc.1.tags)).map
          (fun qc => if qc.1.anchor = true then sampleConfig.anchorWeight
            else sampleConfig.nonAnchorWeight)).sum) ∧
      (∀ m, st.moduleNeeds.get m = none ↔
        ∀ qc ∈ sampleRun, qc.2.isCorrect = false → m ∉ qc.1.tags) ∧
      (∀ (s s1 : State) (q : Question) (c : Choice), c.isCorrect = true →
        (grade sampleConfig s q c = .ok s1 ∨ grade sampleConfig s q c = .error s1) →
        s1.moduleNeeds = s.moduleNeeds) :=
  moduleNeeds_eq_sum_of_wrong_answers sampleConfig sampleRun (by decide) (by decide)

/-- C2: starting from a freshly reset session, after any run over recognised sections,
for each of the four sections `s` the counter `total` is the number of graded questions of
section `s` and `correct` the number of those answered with a correct option. -/
theorem sectionCounts_eq_counts (cfg : Config) (l : List (Question × Choice))
    (hsec : ∀ qc ∈ l, qc.1.sectionName ∈ sectionNames) :
    ∃ st, gradeAll cfg resetState l = .ok st ∧
      ∀ s ∈ sectionNames, st.sectionCounts.get s = some
        { correct :=
            (l.filter (fun qc => qc.1.sectionName = s ∧ qc.2.isCorrect = true)).length
          total := (l.filter (fun qc => qc.1.sectionName = s)).length } := by
  obtain ⟨st, hrun, -, -, hcnt⟩ := gradeAll_spec cfg l resetState hsec
  refine ⟨st, hrun, ?_⟩
  intro s hs
  obtain ⟨x, x1, hx, hx1, ht, hc⟩ := hcnt s hs
  have hx0 : x = ⟨0, 0⟩ := by
    simp only [sectionNames, List.mem_cons, List.mem_singleton, List.not_mem_nil,
      or_false] at hs
    rcases hs with hs | hs | hs | hs <;>
    · subst hs
      simp [resetState, SectionCounts.get] at hx
      exact hx.symm
  subst hx0
  rw [hx1]
  cases x1
  simp at ht hc
  simp [ht, hc]

/-- C2 at `sampleRun`. -/
theorem sectionCounts_eq_counts_witness :
    ∃ st, gradeAll sampleConfig resetState sampleRun = .ok st ∧
      ∀ s ∈ sectionNames, st.sectionCounts.get s = some
        { correct := (sampleRun.filter
            (fun qc => qc.1.sectionName = s ∧ qc.2.isCorrect = true)).length
          total := (sampleRun.filter (fun qc => qc.1.sectionName = s)).length } :=
  sectionCounts_eq_counts sampleConfig sampleRun (by decide)

/-! ## Properties of the recommendation engine -/

/-- The value returned by `recommend`, field by field. -/
theorem recommend_eq_some (cfg : Config) (meta : DataMeta) (st : State) (v : Recommendation)
    (h : recommend cfg meta st = some v) :
    ∃ recs, rankLoop cfg (seriesToConsider cfg st.sectionCounts) meta.modules
        (sortedNeeds st.moduleNeeds) ⟨[], [], 0⟩ = some recs ∧
      v.foundationsPct = pct st.sectionCounts.Foundations ∧
      v.appliedPct = pct st.sectionCounts.Applied ∧
      v.advancedPct = pct st.sectionCounts.Advanced ∧
      v.seriesToConsider = seriesToConsider cfg st.sectionCounts ∧
      v.sortedNeeds = sortedNeeds st.moduleNeeds ∧
      v.primaryRecommendations = recs.primaryRecommendations ∧
      v.secondaryRecommendations =
        (if recs.primaryRecommendations.any (fun m => m.id = cfg.alwaysStartAIAt) = true
          then recs.secondaryRecommendations.filter (fun m => m.id ≠ cfg.alwaysStartAIAt)
          else recs.secondaryRecommendations) ∧
      v.mandatoryAI =
        (if recs.secondaryRecommendations.any (fun m => m.id = cfg.alwaysStartAIAt) = true
          then none
          else if ((seriesToConsider cfg st.sectionCounts).contains "AI/Specialized" &&
              !recs.primaryRecommendations.any (fun m => m.id = cfg.alwaysStartAIAt) &&
              !recs.secondaryRecommendations.any (fun m => m.id = cfg.alwaysStartAIAt)) = true
            then moduleMapGet meta.modules cfg.alwaysStartAIAt else none) ∧
      v.allRecommendedModuleIds =
        (v.primaryRecommendations.map (fun m => m.id) ++
          v.secondaryRecommendations.map (fun m => m.id)) ++
          (match v.mandatoryAI with
            | some m => [m.id]
            | none => []) ∧
      v.archetype = pickArchetype meta.archetypes v.allRecommendedModuleIds := by
  unfold recommend at h
  simp only at h
  split at h
  · cases h
  · rename_i recs hrecs
    cases h
    refine ⟨recs, hrecs, rfl, rfl, rfl, rfl, rfl, rfl, rfl, rfl, ?_, rfl⟩
    simp only
    split <;> simp

/-- The value returned by `finish`, field by field. -/
theorem finish_eq_some (cfg : Config) (meta : DataMeta) (st : State) (r : Result)
    (h : finish cfg meta st = some r) :
    ∃ v, recommend cfg meta st = some v ∧
      r.foundationsPct = v.foundationsPct ∧ r.appliedPct = v.appliedPct ∧
      r.advancedPct = v.advancedPct ∧ r.seriesToConsider = v.seriesToConsider ∧
      r.primaryRecommendations = v.primaryRecommendations ∧
      r.secondaryRecommendations = v.secondaryRecommendations ∧
      r.congratulations = (decide (v.primaryRecommendations.length = 0) &&
        v.mandatoryAI.isNone && decide (v.advancedPct ≥ cfg.sectionThresholds.advanced)) ∧
      r.mandatoryAI = (if r.congratulations = true
        then moduleMapGet meta.modules cfg.alwaysStartAIAt else v.mandatoryAI) ∧
      r.fallbackPrimary = (if (decide (v.primaryRecommendations.length = 0) &&
          v.mandatoryAI.isNone && !r.congratulations) = true
        then (v.sortedNeeds.take cfg.maxRecommendationsPerSeries).map
          (fun e => (moduleMapGet meta.modules e.1, e.2))
        else []) ∧
      v.archetype = some r.archetype := by
  unfold finish at h
  split at h
  · cases h
  · rename_i v hv
    simp only at h
    split at h
    · cases h
    · rename_i a ha
      cases h
      exact ⟨v, hv, rfl, rfl, rfl, rfl, rfl, rfl, rfl, rfl, rfl, ha⟩

theorem gatedRanking_nil (series : List String) (modules : List Module) :
    gatedRanking series modules [] = [] := rfl

theorem gatedRanking_cons (series : List String) (modules : List Module) (id : Nat) (score : ℚ)
    (rest : List (Nat × ℚ)) (m : Module) (hm : moduleMapGet modules id = some m) :
    gatedRanking series modules ((id, score) :: rest) =
      if series.contains (if m.series = "AI" then "AI/Specialized" else m.series) = true
      then ({ m with score := score } : ScoredModule) :: gatedRanking series modules rest
      else gatedRanking series modules rest := by
  simp only [gatedRanking, List.filterMap_cons, hm, Option.map_some', List.filter_cons]

/-- What the loop of lines 157-173 leaves in its variables, from any intermediate state. -/
theorem rankLoop_spec (cfg : Config) (series : List String) (modules : List Module) :
    ∀ (l : List (Nat × ℚ)) (acc recs : Recs),
      acc.currentPrimaryCount = acc.primaryRecommendations.length →
      rankLoop cfg series modules l acc = some recs →
      recs.primaryRecommendations = acc.primaryRecommendations ++
        (gatedRanking series modules l).take
          (cfg.maxRecommendationsPerSeries - acc.primaryRecommendations.length) ∧
      recs.secondaryRecommendations = acc.secondaryRecommendations ++
        ((gatedRanking series modules l).drop
          (cfg.maxRecommendationsPerSeries - acc.primaryRecommendations.length)).take
          (cfg.maxRecommendationsPerSeries - acc.secondaryRecommendations.length) ∧
      ∀ e ∈ l, moduleMapGet modules e.1 ≠ none := by
  intro l
  induction l with
  | nil =>
    intro acc recs _ h
    simp only [rankLoop, Option.some.injEq] at h
    subst h
    simp [gatedRanking_nil]
  | cons e rest ih =>
    intro acc recs hcount h
    obtain ⟨id, score⟩ := e
    cases hm : moduleMapGet modules id with
    | none => simp [rankLoop, hm] at h
    | some m =>
      rw [gatedRanking_cons series modules id score rest m hm]
      simp only [rankLoop, hm] at h
      by_cases hin : series.contains (if m.series = "AI" then "AI/Specialized" else m.series) = true
      · simp only [hin, if_true] at h ⊢
        by_cases hp : acc.currentPrimaryCount < cfg.maxRecommendationsPerSeries
        · simp only [hp, if_true] at h
          obtain ⟨h1, h2, h3⟩ := ih _ recs (by simp [hcount]) h
          rw [hcount] at hp
          have hpos : cfg.maxRecommendationsPerSeries - acc.primaryRecommendations.length
              = (cfg.maxRecommendationsPerSeries -
                  (acc.primaryRecommendations.length + 1)) + 1 := by omega
          refine ⟨?_, ?_, ?_⟩
          · rw [h1, hpos]
            simp
          · rw [h2, hpos]
            simp
          · intro e he
            rcases List.mem_cons.1 he with he | he
            · subst he
              simp [hm]
            · exact h3 e he
        · simp only [hp, if_false] at h
          rw [hcount] at hp
          have hzero : cfg.maxRecommendationsPerSeries - acc.primaryRecommendations.length = 0 := by
            omega
          by_cases hs : acc.secondaryRecommendations.length < cfg.maxRecommendationsPerSeries
          · simp only [hs, if_true] at h
            obtain ⟨h1, h2, h3⟩ := ih _ recs (by simpa using hcount) h
            have hpos : cfg.maxRecommendationsPerSeries - acc.secondaryRecommendations.length
                = (cfg.maxRecommendationsPerSeries -
                    (acc.secondaryRecommendations.length + 1)) + 1 := by omega
            refine ⟨?_, ?_, ?_⟩
            · rw [h1]
              simp [hzero]
            · rw [h2, hzero, hpos]
              simp [hzero]
            · intro e he
              rcases List.mem_cons.1 he with he | he
              · subst he
                simp [hm]
              · exact h3 e he
          · simp only [hs, if_false] at h
            obtain ⟨h1, h2, h3⟩ := ih _ recs hcount h
            have hzero2 : cfg.maxRecommendationsPerSeries - acc.secondaryRecommendations.length
                = 0 := by omega
            refine ⟨?_, ?_, ?_⟩
            · rw [h1]
              simp [hzero]
            · rw [h2]
              simp [hzero2]
            · intro e he
              rcases List.mem_cons.1 he with he | he
              · subst he
                simp [hm]
              · exact h3 e he
      · simp only [hin, if_false] at h ⊢
        obtain ⟨h1, h2, h3⟩ := ih _ recs hcount h
        refine ⟨h1, h2, ?_⟩
        intro e he
        rcases List.mem_cons.1 he with he | he
        · subst he
          simp [hm]
        · exact h3 e he

/-- The loop of lines 157-173 runs to its end when every ranked key has a module. -/
theorem rankLoop_isSome (cfg : Config) (series : List String) (modules : List Module) :
    ∀ (l : List (Nat × ℚ)) (acc : Recs), (∀ e ∈ l, moduleMapGet modules e.1 ≠ none) →
      ∃ recs, rankLoop cfg series modules l acc = some recs := by
  intro l
  induction l with
  | nil =>
    intro acc _
    exact ⟨acc, rfl⟩
  | cons e rest ih =>
    intro acc hall
    obtain ⟨id, score⟩ := e
    have hrest : ∀ e ∈ rest, moduleMapGet modules e.1 ≠ none :=
      fun e he => hall e (List.mem_cons_of_mem _ he)
    cases hm : moduleMapGet modules id with
    | none => exact absurd hm (hall (id, score) (List.mem_cons_self _ _))
    | some m =>
      simp only [rankLoop, hm]
      split_ifs <;> exact ih _ hrest

theorem moduleMapGet_id (modules : List Module) (id : Nat) (m : Module)
    (h : moduleMapGet modules id = some m) : m.id = id := by
  unfold moduleMapGet at h
  have key : ∀ (ms : List Module) (found : Option Module),
      (∀ x, found = some x → x.id = id) →
      ∀ x, ms.foldl (fun found m => if m.id = id then some m else found) found = some x →
        x.id = id := by
    intro ms
    induction ms with
    | nil =>
      intro found hf x hx
      exact hf x hx
    | cons a rest ih =>
      intro found hf x hx
      rw [List.foldl_cons] at hx
      refine ih _ ?_ x hx
      intro y hy
      by_cases ha : a.id = id
      · simp only [ha, if_true, Option.some.injEq] at hy
        subst hy
        exact ha
      · simp only [ha, if_false] at hy
        exact hf y hy
  exact key modules none (fun x hx => by cases hx) m h

theorem objectEntries_perm (o : JsObject) : (objectEntries o).Perm o := by
  unfold objectEntries
  refine ((List.perm_insertionSort _ _).append_right _).trans ?_
  exact List.filter_append_perm _ o

theorem sortedNeeds_perm (o : JsObject) : (sortedNeeds o).Perm o :=
  (List.perm_insertionSort _ _).trans (objectEntries_perm o)

/-- The ids of the gated ranking are taken, in order, from the keys of the ranking. -/
theorem gatedRanking_ids_sublist (series : List String) (modules : List Module)
    (l : List (Nat × ℚ)) :
    ((gatedRanking series modules l).map (fun sm => sm.id)).Sublist (l.map Prod.fst) := by
  induction l with
  | nil => simp [gatedRanking_nil]
  | cons e rest ih =>
    obtain ⟨id, score⟩ := e
    cases hm : moduleMapGet modules id with
    | none =>
      have : gatedRanking series modules ((id, score) :: rest)
          = gatedRanking series modules rest := by
        simp [gatedRanking, hm]
      rw [this]
      exact ih.trans (List.sublist_cons_self _ _)
    | some m =>
      rw [gatedRanking_cons series modules id score rest m hm]
      by_cases hin : series.contains (if m.series = "AI" then "AI/Specialized" else m.series)
          = true
      · rw [if_pos hin]
        simp only [List.map_cons]
        rw [moduleMapGet_id modules id m hm]
        exact ih.cons₂ _
      · rw [if_neg hin]
        exact ih.trans (List.sublist_cons_self _ _)

/-- Distinct keys of `moduleNeeds` give distinct ids in the gated ranking. -/
theorem gatedRanking_ids_nodup (series : List String) (modules : List Module) (o : JsObject)
    (hkeys : (o.map Prod.fst).Nodup) :
    ((gatedRanking series modules (sortedNeeds o)).map (fun sm => sm.id)).Nodup := by
  have h1 : ((sortedNeeds o).map Prod.fst).Nodup :=
    ((sortedNeeds_perm o).map Prod.fst).nodup_iff.2 hkeys
  exact h1.sublist (gatedRanking_ids_sublist series modules (sortedNeeds o))

/-- In a list with distinct ids, an id of the first `n` elements does not occur later. -/
theorem filter_drop_of_mem_take (G : List ScoredModule) (n k : Nat) (ai : Nat)
    (hnd : (G.map (fun sm => sm.id)).Nodup)
    (hin : (G.take n).any (fun m => m.id = ai) = true) :
    ((G.drop n).take k).filter (fun m => m.id ≠ ai) = (G.drop n).take k := by
  rw [List.filter_eq_self]
  intro x hx
  have hx2 : x ∈ G.drop n := List.mem_of_mem_take hx
  simp only [List.any_eq_true, decide_eq_true_eq] at hin
  obtain ⟨y, hy, hyid⟩ := hin
  rw [← List.take_append_drop n G, List.map_append, List.nodup_append] at hnd
  have hdis := hnd.2.2
  simp only [ne_eq, decide_not, Bool.not_eq_true', decide_eq_false_iff_not]
  intro hxid
  exact hdis (List.mem_map_of_mem (fun sm => sm.id) hy)
    (by rw [hyid, ← hxid]; exact List.mem_map_of_mem (fun sm => sm.id) hx2)

theorem JsObject.keys_set (o : JsObject) (k : Nat) (v : ℚ) :
    (o.set k v).map Prod.fst = if k ∈ o.map Prod.fst then o.map Prod.fst
      else o.map Prod.fst ++ [k] := by
  induction o with
  | nil => simp [JsObject.set]
  | cons e rest ih =>
    obtain ⟨k1, v1⟩ := e
    by_cases h : k1 = k
    · subst h
      simp [JsObject.set]
    · have h2 : ¬ k = k1 := fun h3 => h h3.symm
      simp only [JsObject.set, h, if_false, List.map_cons, ih, List.mem_cons, h2, false_or]
      split <;> simp

theorem JsObject.keys_nodup_set (o : JsObject) (k : Nat) (v : ℚ)
    (h : (o.map Prod.fst).Nodup) : ((o.set k v).map Prod.fst).Nodup := by
  rw [JsObject.keys_set]
  split
  · exact h
  · rename_i hk
    exact List.Nodup.append h (List.nodup_singleton k) (by simpa using hk)

theorem addNeeds_keys_nodup (tags : List Nat) (o : JsObject) (w : ℚ)
    (h : (o.map Prod.fst).Nodup) : ((addNeeds o tags w).map Prod.fst).Nodup := by
  induction tags generalizing o with
  | nil => simpa [addNeeds] using h
  | cons t rest ih =>
    have hstep : addNeeds o (t :: rest) w
        = addNeeds (o.set t (orZero (o.get t) + w)) rest w := by
      simp [addNeeds]
    rw [hstep]
    exact ih _ (JsObject.keys_nodup_set o t _ h)

/-- The keys of `moduleNeeds` stay distinct while grading: it is an object. -/
theorem gradeAll_keys_nodup (cfg : Config) (l : List (Question × Choice)) :
    ∀ st st1 : State, (st.moduleNeeds.map Prod.fst).Nodup →
      gradeAll cfg st l = .ok st1 → (st1.moduleNeeds.map Prod.fst).Nodup := by
  induction l with
  | nil =>
    intro st st1 h hrun
    simp only [gradeAll, Except.ok.injEq] at hrun
    subst hrun
    exact h
  | cons qc rest ih =>
    intro st st1 h hrun
    obtain ⟨q, c⟩ := qc
    simp only [gradeAll] at hrun
    cases hg : grade cfg st q c with
    | error s => simp [hg] at hrun
    | ok s =>
      simp only [hg] at hrun
      refine ih s st1 ?_ hrun
      unfold grade at hg
      simp only at hg
      split at hg
      · cases hg
      · split at hg
        · cases hg
          exact addNeeds_keys_nodup _ _ _ h
        · cases hg
          exact h

unseal Rat.add Rat.mul Rat.inv in
/-- The sample run ends in `sampleState`, and `finish` renders `sampleResult` for it. -/
theorem finish_sampleState :
    gradeAll sampleConfig resetState sampleRun = .ok sampleState ∧
      finish sampleConfig sampleMeta sampleState = some sampleResult := by
  constructor
  · rfl
  · decide

unseal Rat.add Rat.mul Rat.inv in
/-- The run `aiRun` ends in `aiState`. -/
theorem gradeAll_aiRun : gradeAll tightConfig resetState aiRun = .ok aiState := rfl

theorem mem_seriesToConsider (cfg : Config) (sc : SectionCounts) (x : String) :
    x ∈ seriesToConsider cfg sc ↔
      (x = "Basic" ∧ pct sc.Foundations < cfg.sectionThresholds.foundations) ∨
      (x = "Advanced" ∧ pct sc.Applied < cfg.sectionThresholds.applied) ∨
      (x = "AI/Specialized" ∧ pct sc.Advanced < cfg.sectionThresholds.advanced) := by
  unfold seriesToConsider
  by_cases h1 : pct sc.Foundations < cfg.sectionThresholds.foundations <;>
  by_cases h2 : pct sc.Applied < cfg.sectionThresholds.applied <;>
  by_cases h3 : pct sc.Advanced < cfg.sectionThresholds.advanced <;>
  simp [h1, h2, h3]

/-- C3: in the result of `finish` each percentage is `correct / total` for a section with
`total > 0` and `0` for an untouched section; `seriesToConsider` contains `Basic` iff the
Foundations percentage is strictly below its threshold, `Advanced` iff the Applied
percentage is, `AI/Specialized` iff the Advanced percentage is, and nothing else. -/
theorem seriesToConsider_gating (cfg : Config) (meta : DataMeta) (st : State) (r : Result)
    (h : finish cfg meta st = some r) :
    r.foundationsPct = (if 0 < st.sectionCounts.Foundations.total
      then (st.sectionCounts.Foundations.correct : ℚ) / st.sectionCounts.Foundations.total
      else 0) ∧
    r.appliedPct = (if 0 < st.sectionCounts.Applied.total
      then (st.sectionCounts.Applied.correct : ℚ) / st.sectionCounts.Applied.total else 0) ∧
    r.advancedPct = (if 0 < st.sectionCounts.Advanced.total
      then (st.sectionCounts.Advanced.correct : ℚ) / st.sectionCounts.Advanced.total else 0) ∧
    ("Basic" ∈ r.seriesToConsider ↔ r.foundationsPct < cfg.sectionThresholds.foundations) ∧
    ("Advanced" ∈ r.seriesToConsider ↔ r.appliedPct < cfg.sectionThresholds.applied) ∧
    ("AI/Specialized" ∈ r.seriesToConsider ↔ r.advancedPct < cfg.sectionThresholds.advanced) ∧
    ∀ x ∈ r.seriesToConsider, x = "Basic" ∨ x = "Advanced" ∨ x = "AI/Specialized" := by
  obtain ⟨v, hv, hf, ha, hd, hs, -⟩ := finish_eq_some cfg meta st r h
  obtain ⟨recs, -, hf2, ha2, hd2, hs2, -⟩ := recommend_eq_some cfg meta st v hv
  rw [hf, ha, hd, hs, hf2, ha2, hd2, hs2]
  have hpct : ∀ s : SectionCount,
      pct s = if 0 < s.total then (s.correct : ℚ) / s.total else 0 := by
    intro s
    unfold pct
    by_cases h0 : s.total = 0
    · simp [h0]
    · simp [h0, Nat.pos_of_ne_zero h0]
  refine ⟨hpct _, hpct _, hpct _, ?_, ?_, ?_, ?_⟩
  · rw [mem_seriesToConsider]
    simp
  · rw [mem_seriesToConsider]
    simp
  · rw [mem_seriesToConsider]
    simp
  · intro x hx
    rw [mem_seriesToConsider] at hx
    tauto

unseal Rat.add Rat.mul Rat.inv in
/-- C3 at `sampleState`: Foundations 1/1, Applied 0/2, Advanced untouched, thresholds 0.7. -/
theorem seriesToConsider_gating_witness :
    finish sampleConfig sampleMeta sampleState = some sampleResult ∧
    sampleResult.advancedPct = (if 0 < sampleState.sectionCounts.Advanced.total
      then (sampleState.sectionCounts.Advanced.correct : ℚ) /
        sampleState.sectionCounts.Advanced.total else 0) ∧
    ("Basic" ∈ sampleResult.seriesToConsider ↔
      sampleResult.foundationsPct < sampleConfig.sectionThresholds.foundations) ∧
    ("Advanced" ∈ sampleResult.seriesToConsider ↔
      sampleResult.appliedPct < sampleConfig.sectionThresholds.applied) ∧
    ("AI/Specialized" ∈ sampleResult.seriesToConsider ↔
      sampleResult.advancedPct < sampleConfig.sectionThresholds.advanced) :=
  have h := seriesToConsider_gating sampleConfig sampleMeta sampleState sampleResult
    (by decide)
  ⟨by decide, h.2.2.1, h.2.2.2.1, h.2.2.2.2.1, h.2.2.2.2.2.1⟩

/-- The two lists of `recommend` are consecutive blocks of the gated ranking. -/
theorem recommend_lists (cfg : Config) (meta : DataMeta) (st : State) (v : Recommendation)
    (hkeys : (st.moduleNeeds.map Prod.fst).Nodup) (h : recommend cfg meta st = some v) :
    v.primaryRecommendations =
      (gatedRanking (seriesToConsider cfg st.sectionCounts) meta.modules
        (sortedNeeds st.moduleNeeds)).take cfg.maxRecommendationsPerSeries ∧
    v.secondaryRecommendations =
      ((gatedRanking (seriesToConsider cfg st.sectionCounts) meta.modules
        (sortedNeeds st.moduleNeeds)).drop cfg.maxRecommendationsPerSeries).take
          cfg.maxRecommendationsPerSeries := by
  obtain ⟨recs, hrecs, -, -, -, -, -, hp, hs, -⟩ := recommend_eq_some cfg meta st v h
  obtain ⟨h1, h2, -⟩ := rankLoop_spec cfg _ _ _ ⟨[], [], 0⟩ recs rfl hrecs
  simp only [List.nil_append, List.length_nil, Nat.sub_zero] at h1 h2
  refine ⟨by rw [hp, h1], ?_⟩
  rw [hs, h1, h2]
  split
  · rename_i hany
    exact filter_drop_of_mem_take _ _ _ _
      (gatedRanking_ids_nodup _ _ _ hkeys) hany
  · rfl

/-- Lines 130-202 run to their end when every key of `moduleNeeds` has a module. -/
theorem recommend_isSome (cfg : Config) (meta : DataMeta) (st : State)
    (hmods : ∀ e ∈ st.moduleNeeds, moduleMapGet meta.modules e.1 ≠ none) :
    ∃ v, recommend cfg meta st = some v := by
  have hall : ∀ e ∈ sortedNeeds st.moduleNeeds, moduleMapGet meta.modules e.1 ≠ none :=
    fun e he => hmods e ((sortedNeeds_perm st.moduleNeeds).mem_iff.1 he)
  obtain ⟨recs, hrecs⟩ := rankLoop_isSome cfg (seriesToConsider cfg st.sectionCounts)
    meta.modules _ ⟨[], [], 0⟩ hall
  unfold recommend
  simp only [hrecs]
  exact ⟨_, rfl⟩

theorem mem_gatedRanking_series (series : List String) (modules : List Module)
    (l : List (Nat × ℚ)) (sm : ScoredModule) (h : sm ∈ gatedRanking series modules l) :
    (if sm.series = "AI" then "AI/Specialized" else sm.series) ∈ series := by
  unfold gatedRanking at h
  have := (List.mem_filter.1 h).2
  simpa using this

/-- C4: when the keys of `moduleNeeds` are distinct and each has a module, lines 130-202
run to their end, and both there and in the result of `finish` the primary list is the
first `N = maxRecommendationsPerSeries` elements of the gated ranking `G`, the secondary
list is the next `N` elements of `G` (nothing after them is kept), and every listed module
has its filtering series in `seriesToConsider`. -/
theorem recommendations_are_blocks_of_gated_ranking (cfg : Config) (meta : DataMeta)
    (st : State) (hkeys : (st.moduleNeeds.map Prod.fst).Nodup)
    (hmods : ∀ e ∈ st.moduleNeeds, moduleMapGet meta.modules e.1 ≠ none) :
    (∃ v, recommend cfg meta st = some v ∧
      v.primaryRecommendations =
        (gatedRanking (seriesToConsider cfg st.sectionCounts) meta.modules
          (sortedNeeds st.moduleNeeds)).take cfg.maxRecommendationsPerSeries ∧
      v.secondaryRecommendations =
        ((gatedRanking (seriesToConsider cfg st.sectionCounts) meta.modules
          (sortedNeeds st.moduleNeeds)).drop cfg.maxRecommendationsPerSeries).take
            cfg.maxRecommendationsPerSeries ∧
      ∀ sm ∈ v.primaryRecommendations ++ v.secondaryRecommendations,
        (if sm.series = "AI" then "AI/Specialized" else sm.series) ∈
          seriesToConsider cfg st.sectionCounts) ∧
    ∀ r, finish cfg meta st = some r →
      r.primaryRecommendations =
        (gatedRanking (seriesToConsider cfg st.sectionCounts) meta.modules
          (sortedNeeds st.moduleNeeds)).take cfg.maxRecommendationsPerSeries ∧
      r.secondaryRecommendations =
        ((gatedRanking (seriesToConsider cfg st.sectionCounts) meta.modules
          (sortedNeeds st.moduleNeeds)).drop cfg.maxRecommendationsPerSeries).take
            cfg.maxRecommendationsPerSeries ∧
      ∀ sm ∈ r.primaryRecommendations ++ r.secondaryRecommendations,
        (if sm.series = "AI" then "AI/Specialized" else sm.series) ∈ r.seriesToConsider := by
  have hmem : ∀ (p s : List ScoredModule),
      p = (gatedRanking (seriesToConsider cfg st.sectionCounts) meta.modules
          (sortedNeeds st.moduleNeeds)).take cfg.maxRecommendationsPerSeries →
      s = ((gatedRanking (seriesToConsider cfg st.sectionCounts) meta.modules
          (sortedNeeds st.moduleNeeds)).drop cfg.maxRecommendationsPerSeries).take
            cfg.maxRecommendationsPerSeries →
      ∀ sm ∈ p ++ s, (if sm.series = "AI" then "AI/Specialized" else sm.series) ∈
          seriesToConsider cfg st.sectionCounts := by
    intro p s hp hs sm hsm
    apply mem_gatedRanking_series _ meta.modules (sortedNeeds st.moduleNeeds)
    rcases List.mem_append.1 hsm with hm | hm
    · rw [hp] at hm
      exact List.mem_of_mem_take hm
    · rw [hs] at hm
      exact List.mem_of_mem_drop (List.mem_of_mem_take hm)
  constructor
  · obtain ⟨v, hv⟩ := recommend_isSome cfg meta st hmods
    obtain ⟨h1, h2⟩ := recommend_lists cfg meta st v hkeys hv
    exact ⟨v, hv, h1, h2, hmem _ _ h1 h2⟩
  · intro r hr
    obtain ⟨v, hv, -, -, -, hser, hp, hs, -⟩ := finish_eq_some cfg meta st r hr
    obtain ⟨recs, -, -, -, -, hser2, -⟩ := recommend_eq_some cfg meta st v hv
    obtain ⟨h1, h2⟩ := recommend_lists cfg meta st v hkeys hv
    rw [hp, hs, hser, hser2]
    exact ⟨h1, h2, hmem _ _ h1 h2⟩

unseal Rat.add Rat.mul Rat.inv in
/-- C4 at `sampleState` with a cap of one: module 2 is primary, module 5 secondary. -/
theorem recommendations_are_blocks_of_gated_ranking_witness :
    gatedRanking (seriesToConsider tightConfig sampleState.sectionCounts) sampleMeta.modules
        (sortedNeeds sampleState.moduleNeeds) =
      [{ id := 2, name := "Spreadsheets", series := "Advanced", score := 1 },
       { id := 5, name := "Dashboards", series := "Advanced", score := 1 }] ∧
    ∃ v, recommend tightConfig sampleMeta sampleState = some v ∧
      v.primaryRecommendations =
        (gatedRanking (seriesToConsider tightConfig sampleState.sectionCounts)
          sampleMeta.modules (sortedNeeds sampleState.moduleNeeds)).take
            tightConfig.maxRecommendationsPerSeries ∧
      v.secondaryRecommendations =
        ((gatedRanking (seriesToConsider tightConfig sampleState.sectionCounts)
          sampleMeta.modules (sortedNeeds sampleState.moduleNeeds)).drop
            tightConfig.maxRecommendationsPerSeries).take
              tightConfig.maxRecommendationsPerSeries ∧
      ∀ sm ∈ v.primaryRecommendations ++ v.secondaryRecommendations,
        (if sm.series = "AI" then "AI/Specialized" else sm.series) ∈
          seriesToConsider tightConfig sampleState.sectionCounts :=
  ⟨by decide,
    (recommendations_are_blocks_of_gated_ranking tightConfig sampleMeta sampleState
      (by decide) (by decide)).1⟩

/-- C5: in every result of `finish` the primary and the secondary list have at most
`maxRecommendationsPerSeries` elements, and so has the need-score fallback list. -/
theorem recommendation_lengths_le_cap (cfg : Config) (meta : DataMeta) (st : State)
    (r : Result) (h : finish cfg meta st = some r) :
    r.primaryRecommendations.length ≤ cfg.maxRecommendationsPerSeries ∧
    r.secondaryRecommendations.length ≤ cfg.maxRecommendationsPerSeries ∧
    r.fallbackPrimary.length ≤ cfg.maxRecommendationsPerSeries := by
  obtain ⟨v, hv, -, -, -, -, hp, hs, -, -, hfb, -⟩ := finish_eq_some cfg meta st r h
  obtain ⟨recs, hrecs, -, -, -, -, -, hp2, hs2, -⟩ := recommend_eq_some cfg meta st v hv
  obtain ⟨h1, h2, -⟩ := rankLoop_spec cfg _ _ _ ⟨[], [], 0⟩ recs rfl hrecs
  simp only [List.nil_append, List.length_nil, Nat.sub_zero] at h1 h2
  have hsec : recs.secondaryRecommendations.length ≤ cfg.maxRecommendationsPerSeries := by
    rw [h2]
    exact List.length_take_le _ _
  refine ⟨?_, ?_, ?_⟩
  · rw [hp, hp2, h1]
    exact List.length_take_le _ _
  · rw [hs, hs2]
    split
    · exact (List.length_filter_le _ _).trans hsec
    · exact hsec
  · rw [hfb]
    split
    · rw [List.length_map]
      exact List.length_take_le _ _
    · simp

unseal Rat.add Rat.mul Rat.inv in
/-- C5 at `sampleState`. -/
theorem recommendation_lengths_le_cap_witness :
    finish sampleConfig sampleMeta sampleState = some sampleResult ∧
    sampleResult.primaryRecommendations.length ≤ sampleConfig.maxRecommendationsPerSeries ∧
    sampleResult.secondaryRecommendations.length ≤ sampleConfig.maxRecommendationsPerSeries ∧
    sampleResult.fallbackPrimary.length ≤ sampleConfig.maxRecommendationsPerSeries :=
  ⟨by decide,
    recommendation_lengths_le_cap sampleConfig sampleMeta sampleState sampleResult (by decide)⟩

/-- The mandatory module after lines 175-194, in terms of the lists of line 202. -/
theorem recommend_mandatory (cfg : Config) (meta : DataMeta) (st : State)
    (v : Recommendation) (h : recommend cfg meta st = some v) :
    v.mandatoryAI =
      if "AI/Specialized" ∈ v.seriesToConsider ∧
          (∀ sm ∈ v.primaryRecommendations, sm.id ≠ cfg.alwaysStartAIAt) ∧
          (∀ sm ∈ v.secondaryRecommendations, sm.id ≠ cfg.alwaysStartAIAt)
        then moduleMapGet meta.modules cfg.alwaysStartAIAt else none := by
  obtain ⟨recs, -, -, -, -, hser, -, hp, hs, hm, -⟩ := recommend_eq_some cfg meta st v h
  by_cases hP : recs.primaryRecommendations.any (fun m => m.id = cfg.alwaysStartAIAt) = true
  · have hP2 : ¬ ∀ sm ∈ recs.primaryRecommendations, sm.id ≠ cfg.alwaysStartAIAt := by
      simpa using hP
    have hcond : ¬ ("AI/Specialized" ∈ v.seriesToConsider ∧
          (∀ sm ∈ v.primaryRecommendations, sm.id ≠ cfg.alwaysStartAIAt) ∧
          (∀ sm ∈ v.secondaryRecommendations, sm.id ≠ cfg.alwaysStartAIAt)) := by
      rintro ⟨-, hc, -⟩
      rw [hp] at hc
      exact hP2 hc
    rw [if_neg hcond, hm]
    simp [hP]
  · have hP2 : ∀ sm ∈ recs.primaryRecommendations, sm.id ≠ cfg.alwaysStartAIAt := by
      simpa using hP
    have hs2 : v.secondaryRecommendations = recs.secondaryRecommendations := by
      rw [hs, if_neg hP]
    by_cases hS : recs.secondaryRecommendations.any (fun m => m.id = cfg.alwaysStartAIAt)
        = true
    · have hS2 : ¬ ∀ sm ∈ recs.secondaryRecommendations, sm.id ≠ cfg.alwaysStartAIAt := by
        simpa using hS
      have hcond : ¬ ("AI/Specialized" ∈ v.seriesToConsider ∧
          (∀ sm ∈ v.primaryRecommendations, sm.id ≠ cfg.alwaysStartAIAt) ∧
          (∀ sm ∈ v.secondaryRecommendations, sm.id ≠ cfg.alwaysStartAIAt)) := by
        rintro ⟨-, -, hc⟩
        rw [hs2] at hc
        exact hS2 hc
      rw [if_neg hcond, hm, if_pos hS]
    · have hS2 : ∀ sm ∈ recs.secondaryRecommendations, sm.id ≠ cfg.alwaysStartAIAt := by
        simpa using hS
      by_cases hA : "AI/Specialized" ∈ seriesToConsider cfg st.sectionCounts
      · have hcond : "AI/Specialized" ∈ v.seriesToConsider ∧
            (∀ sm ∈ v.primaryRecommendations, sm.id ≠ cfg.alwaysStartAIAt) ∧
            (∀ sm ∈ v.secondaryRecommendations, sm.id ≠ cfg.alwaysStartAIAt) :=
          ⟨by rw [hser]; exact hA, by rw [hp]; exact hP2, by rw [hs2]; exact hS2⟩
        rw [if_pos hcond, hm, if_neg hS]
        have hP3 : recs.primaryRecommendations.any (fun m => m.id = cfg.alwaysStartAIAt)
            = false := by simpa using hP
        have hS3 : recs.secondaryRecommendations.any (fun m => m.id = cfg.alwaysStartAIAt)
            = false := by simpa using hS
        have hA2 : (seriesToConsider cfg st.sectionCounts).contains "AI/Specialized" = true := by
          simpa using hA
        rw [hP3, hS3, hA2]
        rfl
      · have hcond : ¬ ("AI/Specialized" ∈ v.seriesToConsider ∧
            (∀ sm ∈ v.primaryRecommendations, sm.id ≠ cfg.alwaysStartAIAt) ∧
            (∀ sm ∈ v.secondaryRecommendations, sm.id ≠ cfg.alwaysStartAIAt)) := by
          rintro ⟨hc, -, -⟩
          rw [hser] at hc
          exact hA hc
        have hA2 : (seriesToConsider cfg st.sectionCounts).contains "AI/Specialized"
            = false := by simpa using hA
        rw [if_neg hcond, hm, if_neg hS, hA2]
        rfl

/-- The ids listed by `recommend` are pairwise distinct when the keys of `moduleNeeds` are. -/
theorem recommend_ids_nodup (cfg : Config) (meta : DataMeta) (st : State)
    (v : Recommendation) (hkeys : (st.moduleNeeds.map Prod.fst).Nodup)
    (h : recommend cfg meta st = some v) :
    ((v.primaryRecommendations ++ v.secondaryRecommendations).map (fun m => m.id)).Nodup := by
  obtain ⟨h1, h2⟩ := recommend_lists cfg meta st v hkeys h
  have hG := gatedRanking_ids_nodup (seriesToConsider cfg st.sectionCounts) meta.modules
    st.moduleNeeds hkeys
  refine hG.sublist (List.Sublist.map _ ?_)
  rw [h1, h2]
  conv_rhs => rw [← List.take_append_drop cfg.maxRecommendationsPerSeries
    (gatedRanking (seriesToConsider cfg st.sectionCounts) meta.modules
      (sortedNeeds st.moduleNeeds))]
  exact List.Sublist.append (List.Sublist.refl _) (List.take_sublist _ _)

/-- An empty primary list at line 202 comes with an empty secondary list. -/
theorem recommend_secondary_nil (cfg : Config) (meta : DataMeta) (st : State)
    (v : Recommendation) (h : recommend cfg meta st = some v)
    (hprim : v.primaryRecommendations = []) : v.secondaryRecommendations = [] := by
  obtain ⟨recs, hrecs, -, -, -, -, -, hp, hs, -⟩ := recommend_eq_some cfg meta st v h
  obtain ⟨h1, h2, -⟩ := rankLoop_spec cfg _ _ _ ⟨[], [], 0⟩ recs rfl hrecs
  simp only [List.nil_append, List.length_nil, Nat.sub_zero] at h1 h2
  have hsec : recs.secondaryRecommendations = [] := by
    rw [hp, h1, List.take_eq_nil_iff] at hprim
    rw [h2]
    rcases hprim with h0 | hG
    · rw [h0]
      rfl
    · rw [hG]
      simp
  rw [hs, hsec]
  simp

/-- C6: when the Advanced percentage is strictly below its threshold (so the series
`AI/Specialized` is gated in) and the module `alwaysStartAIAt` exists, its id occurs exactly
once among the ids of the primary list, the secondary list and the mandatory module of the
result; when neither list has it, it is the mandatory module; and the need-score fallback
list, which could repeat it, is not rendered. -/
theorem ai_entry_listed_exactly_once (cfg : Config) (meta : DataMeta) (st : State)
    (r : Result) (ai : Module) (hkeys : (st.moduleNeeds.map Prod.fst).Nodup)
    (h : finish cfg meta st = some r)
    (hgate : r.advancedPct < cfg.sectionThresholds.advanced)
    (hai : moduleMapGet meta.modules cfg.alwaysStartAIAt = some ai) :
    "AI/Specialized" ∈ r.seriesToConsider ∧
    ((r.primaryRecommendations ++ r.secondaryRecommendations).map (fun m => m.id) ++
      r.mandatoryAI.toList.map (fun m => m.id)).count cfg.alwaysStartAIAt = 1 ∧
    ((∀ sm ∈ r.primaryRecommendations ++ r.secondaryRecommendations,
        sm.id ≠ cfg.alwaysStartAIAt) → r.mandatoryAI = some ai) ∧
    r.fallbackPrimary = [] := by
  obtain ⟨v, hv, -, -, hadv, hser, hp, hs, hcon, hman, hfb, -⟩ :=
    finish_eq_some cfg meta st r h
  obtain ⟨recs, -, -, -, hadv2, hser2, -⟩ := recommend_eq_some cfg meta st v hv
  have hA : "AI/Specialized" ∈ v.seriesToConsider := by
    rw [hser2, mem_seriesToConsider]
    right
    right
    exact ⟨rfl, by rw [← hadv2, ← hadv]; exact hgate⟩
  have hcon2 : r.congratulations = false := by
    rw [hcon]
    have : ¬ (v.advancedPct ≥ cfg.sectionThresholds.advanced) := by
      rw [← hadv]
      exact not_le.2 hgate
    simp [this]
  have hman2 : r.mandatoryAI = v.mandatoryAI := by
    rw [hman, hcon2]
    simp
  have hnd := recommend_ids_nodup cfg meta st v hkeys hv
  have hmand := recommend_mandatory cfg meta st v hv
  have hfb2 : r.fallbackPrimary = [] := by
    rw [hfb]
    by_cases hprim : v.primaryRecommendations = []
    · have hsec := recommend_secondary_nil cfg meta st v hv hprim
      have hcond : "AI/Specialized" ∈ v.seriesToConsider ∧
          (∀ sm ∈ v.primaryRecommendations, sm.id ≠ cfg.alwaysStartAIAt) ∧
          (∀ sm ∈ v.secondaryRecommendations, sm.id ≠ cfg.alwaysStartAIAt) := by
        rw [hprim, hsec]
        exact ⟨hA, by simp, by simp⟩
      rw [hmand, if_pos hcond, hai]
      simp
    · simp [hprim]
  rw [hman2, hp, hs, hser]
  refine ⟨hA, ?_, ?_, hfb2⟩
  · by_cases hmem : cfg.alwaysStartAIAt ∈
        (v.primaryRecommendations ++ v.secondaryRecommendations).map (fun m => m.id)
    · have hcond : ¬ ("AI/Specialized" ∈ v.seriesToConsider ∧
          (∀ sm ∈ v.primaryRecommendations, sm.id ≠ cfg.alwaysStartAIAt) ∧
          (∀ sm ∈ v.secondaryRecommendations, sm.id ≠ cfg.alwaysStartAIAt)) := by
        rintro ⟨-, hc1, hc2⟩
        obtain ⟨sm, hsm, hid⟩ := List.mem_map.1 hmem
        rcases List.mem_append.1 hsm with hsm | hsm
        · exact hc1 sm hsm hid
        · exact hc2 sm hsm hid
      rw [hmand, if_neg hcond, List.count_append, List.count_eq_one_of_mem hnd hmem]
      simp
    · have hcond : "AI/Specialized" ∈ v.seriesToConsider ∧
          (∀ sm ∈ v.primaryRecommendations, sm.id ≠ cfg.alwaysStartAIAt) ∧
          (∀ sm ∈ v.secondaryRecommendations, sm.id ≠ cfg.alwaysStartAIAt) := by
        refine ⟨hA, ?_, ?_⟩
        · intro sm hsm hid
          exact hmem (List.mem_map.2 ⟨sm, List.mem_append_left _ hsm, hid⟩)
        · intro sm hsm hid
          exact hmem (List.mem_map.2 ⟨sm, List.mem_append_right _ hsm, hid⟩)
      rw [hmand, if_pos hcond, hai, List.count_append, List.count_eq_zero_of_not_mem hmem]
      simp [moduleMapGet_id meta.modules cfg.alwaysStartAIAt ai hai]
  · intro hnone
    have hcond : "AI/Specialized" ∈ v.seriesToConsider ∧
        (∀ sm ∈ v.primaryRecommendations, sm.id ≠ cfg.alwaysStartAIAt) ∧
        (∀ sm ∈ v.secondaryRecommendations, sm.id ≠ cfg.alwaysStartAIAt) :=
      ⟨hA, fun sm hsm => hnone sm (List.mem_append_left _ hsm),
        fun sm hsm => hnone sm (List.mem_append_right _ hsm)⟩
    rw [hmand, if_pos hcond, hai]

unseal Rat.add Rat.mul Rat.inv in
/-- C6 at `sampleState`: module 11 has no need, is in neither list, and is mandatory. -/
theorem ai_entry_listed_exactly_once_witness :
    finish sampleConfig sampleMeta sampleState = some sampleResult ∧
    "AI/Specialized" ∈ sampleResult.seriesToConsider ∧
    ((sampleResult.primaryRecommendations ++ sampleResult.secondaryRecommendations).map
        (fun m => m.id) ++
      sampleResult.mandatoryAI.toList.map (fun m => m.id)).count
        sampleConfig.alwaysStartAIAt = 1 ∧
    ((∀ sm ∈ sampleResult.primaryRecommendations ++ sampleResult.secondaryRecommendations,
        sm.id ≠ sampleConfig.alwaysStartAIAt) →
      sampleResult.mandatoryAI = some ⟨11, "AI 101", "AI"⟩) ∧
    sampleResult.fallbackPrimary = [] :=
  ⟨by decide,
    ai_entry_listed_exactly_once sampleConfig sampleMeta sampleState sampleResult
      ⟨11, "AI 101", "AI"⟩ (by decide) (by decide) (by decide) (by decide)⟩

/-- C7: after the override of lines 175-194 (before the no-weakness branch) the mandatory
module is the module `alwaysStartAIAt` exactly when `AI/Specialized` is in
`seriesToConsider` and neither list has that module, and no mandatory module is set
otherwise; when the loop left the module in the secondary list only, no mandatory module
is set and the secondary list is left as the loop built it. -/
theorem mandatory_after_override (cfg : Config) (meta : DataMeta) (st : State)
    (v : Recommendation) (h : recommend cfg meta st = some v) :
    (∀ ai, moduleMapGet meta.modules cfg.alwaysStartAIAt = some ai →
      (v.mandatoryAI = some ai ↔
        "AI/Specialized" ∈ v.seriesToConsider ∧
        (∀ sm ∈ v.primaryRecommendations, sm.id ≠ cfg.alwaysStartAIAt) ∧
        (∀ sm ∈ v.secondaryRecommendations, sm.id ≠ cfg.alwaysStartAIAt))) ∧
    (("AI/Specialized" ∈ v.seriesToConsider ∧
        (∀ sm ∈ v.primaryRecommendations, sm.id ≠ cfg.alwaysStartAIAt) ∧
        (∀ sm ∈ v.secondaryRecommendations, sm.id ≠ cfg.alwaysStartAIAt)) →
      v.mandatoryAI = moduleMapGet meta.modules cfg.alwaysStartAIAt) ∧
    (¬ ("AI/Specialized" ∈ v.seriesToConsider ∧
        (∀ sm ∈ v.primaryRecommendations, sm.id ≠ cfg.alwaysStartAIAt) ∧
        (∀ sm ∈ v.secondaryRecommendations, sm.id ≠ cfg.alwaysStartAIAt)) →
      v.mandatoryAI = none) ∧
    ∃ recs, rankLoop cfg (seriesToConsider cfg st.sectionCounts) meta.modules
        (sortedNeeds st.moduleNeeds) ⟨[], [], 0⟩ = some recs ∧
      ((∃ sm ∈ recs.secondaryRecommendations, sm.id = cfg.alwaysStartAIAt) →
        (∀ sm ∈ recs.primaryRecommendations, sm.id ≠ cfg.alwaysStartAIAt) →
        v.mandatoryAI = none ∧
        v.secondaryRecommendations = recs.secondaryRecommendations ∧
        ∃ sm ∈ v.secondaryRecommendations, sm.id = cfg.alwaysStartAIAt) := by
  have hmand := recommend_mandatory cfg meta st v h
  obtain ⟨recs, hrecs, -, -, -, -, -, -, hs, hm, -⟩ := recommend_eq_some cfg meta st v h
  refine ⟨?_, ?_, ?_, recs, hrecs, ?_⟩
  · intro ai hai
    rw [hmand, hai]
    constructor
    · intro heq
      by_contra hcond
      rw [if_neg hcond] at heq
      cases heq
    · intro hcond
      rw [if_pos hcond]
  · intro hcond
    rw [hmand, if_pos hcond]
  · intro hcond
    rw [hmand, if_neg hcond]
  · rintro ⟨sm, hsm, hid⟩ hprim
    have hS : recs.secondaryRecommendations.any (fun m => m.id = cfg.alwaysStartAIAt)
        = true := by
      simp only [List.any_eq_true, decide_eq_true_eq]
      exact ⟨sm, hsm, hid⟩
    have hP : ¬ recs.primaryRecommendations.any (fun m => m.id = cfg.alwaysStartAIAt)
        = true := by
      simpa using hprim
    have hs2 : v.secondaryRecommendations = recs.secondaryRecommendations := by
      rw [hs, if_neg hP]
    refine ⟨by rw [hm, if_pos hS], hs2, sm, by rw [hs2]; exact hsm, hid⟩

unseal Rat.add Rat.mul Rat.inv in
/-- C7 at `aiState` with a cap of one: module 5 is primary, module 11 secondary, and no
mandatory module is set. -/
theorem mandatory_after_override_witness :
    recommend tightConfig sampleMeta aiState = some aiRecommendation ∧
    (∀ ai, moduleMapGet sampleMeta.modules tightConfig.alwaysStartAIAt = some ai →
      (aiRecommendation.mandatoryAI = some ai ↔
        "AI/Specialized" ∈ aiRecommendation.seriesToConsider ∧
        (∀ sm ∈ aiRecommendation.primaryRecommendations,
          sm.id ≠ tightConfig.alwaysStartAIAt) ∧
        (∀ sm ∈ aiRecommendation.secondaryRecommendations,
          sm.id ≠ tightConfig.alwaysStartAIAt))) ∧
    (¬ ("AI/Specialized" ∈ aiRecommendation.seriesToConsider ∧
        (∀ sm ∈ aiRecommendation.primaryRecommendations,
          sm.id ≠ tightConfig.alwaysStartAIAt) ∧
        (∀ sm ∈ aiRecommendation.secondaryRecommendations,
          sm.id ≠ tightConfig.alwaysStartAIAt)) →
      aiRecommendation.mandatoryAI = none) ∧
    ∃ sm ∈ aiRecommendation.secondaryRecommendations, sm.id = tightConfig.alwaysStartAIAt :=
  have h := mandatory_after_override tightConfig sampleMeta aiState aiRecommendation
    (by decide)
  ⟨by decide, h.1, h.2.2.1, by decide⟩

/-! ## Archetype selection -/

/-- `List.find?` returns the first element that satisfies the test, as a split of the list. -/
theorem find?_split {α : Type} (p : α → Bool) (l : List α) (hex : ∃ a ∈ l, p a = true) :
    ∃ pre a post, l = pre ++ a :: post ∧ p a = true ∧ (∀ b ∈ pre, p b = false) ∧
      l.find? p = some a := by
  induction l with
  | nil =>
    obtain ⟨a, ha, -⟩ := hex
    cases ha
  | cons x rest ih =>
    cases hx : p x with
    | true => exact ⟨[], x, rest, rfl, hx, by simp, by simp [List.find?, hx]⟩
    | false =>
      have hex2 : ∃ a ∈ rest, p a = true := by
        obtain ⟨a, ha, hpa⟩ := hex
        rcases List.mem_cons.1 ha with ha | ha
        · subst ha
          rw [hx] at hpa
          cases hpa
        · exact ⟨a, ha, hpa⟩
      obtain ⟨pre, a, post, hl, hpa, hpre, hfind⟩ := ih hex2
      refine ⟨x :: pre, a, post, by rw [hl]; rfl, hpa, ?_, by simp [List.find?, hx, hfind]⟩
      intro b hb
      rcases List.mem_cons.1 hb with hb | hb
      · subst hb
        exact hx
      · exact hpre b hb

theorem pickArchetype_cons_of_find (arcs : List Archetype) (j : Nat) (rest : List Nat)
    (a : Archetype) (h : arcs.find? (fun a => a.mapsTo.contains j) = some a) :
    pickArchetype arcs (j :: rest) = some a := by
  simp only [pickArchetype, h]

theorem pickArchetype_cons_of_not_find (arcs : List Archetype) (j : Nat) (rest : List Nat)
    (h : arcs.find? (fun a => a.mapsTo.contains j) = none) :
    pickArchetype arcs (j :: rest) = pickArchetype arcs rest := by
  simp only [pickArchetype, h]

theorem pickArchetype_of_no_match (arcs : List Archetype) (ids : List Nat)
    (hno : ∀ j ∈ ids, ∀ b ∈ arcs, j ∉ b.mapsTo) :
    pickArchetype arcs ids = pickArchetype arcs [] := by
  induction ids with
  | nil => rfl
  | cons j rest ih =>
    have hfind : arcs.find? (fun a => a.mapsTo.contains j) = none := by
      rw [List.find?_eq_none]
      intro b hb
      simpa using hno j (List.mem_cons_self _ _) b hb
    rw [pickArchetype_cons_of_not_find arcs j rest hfind]
    exact ih (fun k hk => hno k (List.mem_cons_of_mem _ hk))

/-- C8: `pickArchetype` returns, when some listed id is in the `mapsTo` of some archetype,
the first archetype (in declaration order) whose `mapsTo` has the earliest such id;
otherwise the first archetype with id `asker-of-why` when there is one; otherwise the first
archetype of the dataset (`undefined` for an empty dataset). -/
theorem pickArchetype_spec (arcs : List Archetype) (ids : List Nat) :
    ((∃ j ∈ ids, ∃ b ∈ arcs, j ∈ b.mapsTo) →
      ∃ pre id post apre a apost, ids = pre ++ id :: post ∧
        (∀ j ∈ pre, ∀ b ∈ arcs, j ∉ b.mapsTo) ∧
        arcs = apre ++ a :: apost ∧ id ∈ a.mapsTo ∧ (∀ b ∈ apre, id ∉ b.mapsTo) ∧
        pickArchetype arcs ids = some a) ∧
    ((∀ j ∈ ids, ∀ b ∈ arcs, j ∉ b.mapsTo) →
      ((∃ b ∈ arcs, b.id = "asker-of-why") →
        ∃ apre a apost, arcs = apre ++ a :: apost ∧ a.id = "asker-of-why" ∧
          (∀ b ∈ apre, b.id ≠ "asker-of-why") ∧ pickArchetype arcs ids = some a) ∧
      ((∀ b ∈ arcs, b.id ≠ "asker-of-why") → pickArchetype arcs ids = arcs.head?)) := by
  constructor
  · intro hex
    induction ids with
    | nil =>
      obtain ⟨j, hj, -⟩ := hex
      cases hj
    | cons i rest ih =>
      by_cases hi : ∃ b ∈ arcs, i ∈ b.mapsTo
      · obtain ⟨apre, a, apost, harcs, hpa, hapre, hfind⟩ :=
          find?_split (fun a : Archetype => a.mapsTo.contains i) arcs
            (by obtain ⟨b, hb, hib⟩ := hi; exact ⟨b, hb, by simpa using hib⟩)
        refine ⟨[], i, rest, apre, a, apost, rfl, by simp, harcs, by simpa using hpa, ?_, ?_⟩
        · intro b hb
          simpa using hapre b hb
        · exact pickArchetype_cons_of_find arcs i rest a hfind
      · have hex2 : ∃ j ∈ rest, ∃ b ∈ arcs, j ∈ b.mapsTo := by
          obtain ⟨j, hj, b, hb, hjb⟩ := hex
          rcases List.mem_cons.1 hj with hj | hj
          · subst hj
            exact absurd ⟨b, hb, hjb⟩ hi
          · exact ⟨j, hj, b, hb, hjb⟩
        obtain ⟨pre, id, post, apre, a, apost, hids, hpre, harcs, hida, hapre, hpick⟩ := ih hex2
        have hfind : arcs.find? (fun a => a.mapsTo.contains i) = none := by
          rw [List.find?_eq_none]
          intro b hb
          have := fun hc => hi ⟨b, hb, hc⟩
          simpa using this
        refine ⟨i :: pre, id, post, apre, a, apost, by rw [hids]; rfl, ?_, harcs, hida, hapre,
          by rw [pickArchetype_cons_of_not_find arcs i rest hfind]; exact hpick⟩
        intro j hj b hb hjb
        rcases List.mem_cons.1 hj with hj | hj
        · subst hj
          exact hi ⟨b, hb, hjb⟩
        · exact hpre j hj b hb hjb
  · intro hno
    rw [pickArchetype_of_no_match arcs ids hno]
    constructor
    · intro hex
      obtain ⟨apre, a, apost, harcs, hpa, hapre, hfind⟩ :=
        find?_split (fun a : Archetype => decide (a.id = "asker-of-why")) arcs
          (by obtain ⟨b, hb, hbid⟩ := hex; exact ⟨b, hb, by simpa using hbid⟩)
      refine ⟨apre, a, apost, harcs, by simpa using hpa, ?_, ?_⟩
      · intro b hb
        simpa using hapre b hb
      · rw [pickArchetype, hfind]
    · intro hnone
      have hfind : arcs.find? (fun a => decide (a.id = "asker-of-why")) = none := by
        rw [List.find?_eq_none]
        intro b hb
        simpa using hnone b hb
      rw [pickArchetype, hfind]

/-- C8 at the sample archetypes: id 5 matches nothing, id 11 is mapped by `pathfinder`. -/
theorem pickArchetype_spec_witness :
    (∃ j ∈ [5, 11], ∃ b ∈ sampleMeta.archetypes, j ∈ b.mapsTo) ∧
    ∃ pre id post apre a apost, [5, 11] = pre ++ id :: post ∧
      (∀ j ∈ pre, ∀ b ∈ sampleMeta.archetypes, j ∉ b.mapsTo) ∧
      sampleMeta.archetypes = apre ++ a :: apost ∧ id ∈ a.mapsTo ∧
      (∀ b ∈ apre, id ∉ b.mapsTo) ∧
      pickArchetype sampleMeta.archetypes [5, 11] = some a :=
  ⟨by decide, (pickArchetype_spec sampleMeta.archetypes [5, 11]).1 (by decide)⟩

unseal Rat.add Rat.mul Rat.inv in
/-- C9 fails for the perfect run: the result has module 11 as mandatory module, archetype
selection on the ids of that result picks `pathfinder` (which maps 11), but the archetype
of the result is the fallback `asker-of-why`. -/
theorem archetype_of_perfect_run_ignores_mandatory :
    gradeAll sampleConfig resetState perfectRun = .ok perfectState ∧
    finish sampleConfig sampleMeta perfectState = some perfectResult ∧
    pickArchetype sampleMeta.archetypes
      (perfectResult.primaryRecommendations.map (fun m => m.id) ++
        perfectResult.secondaryRecommendations.map (fun m => m.id) ++
        perfectResult.mandatoryAI.toList.map (fun m => m.id))
      = some ⟨"pathfinder", "Pathfinder", "Starts with AI", [11]⟩ ∧
    some perfectResult.archetype ≠
      pickArchetype sampleMeta.archetypes
        (perfectResult.primaryRecommendations.map (fun m => m.id) ++
          perfectResult.secondaryRecommendations.map (fun m => m.id) ++
          perfectResult.mandatoryAI.toList.map (fun m => m.id)) := by
  refine ⟨rfl, by decide, by decide, by decide⟩

/-- C9 as amended: the archetype of the result is archetype selection applied to the primary
ids, the secondary ids and the mandatory id as they stand at line 202, before the
no-weakness branch.  The two lists are those of the result; the mandatory module is that of
the result unless the congratulations branch is taken, in which case the selection ran on
the empty list. -/
theorem archetype_selected_before_fallback (cfg : Config) (meta : DataMeta) (st : State)
    (r : Result) (h : finish cfg meta st = some r) :
    ∃ v, recommend cfg meta st = some v ∧
      r.primaryRecommendations = v.primaryRecommendations ∧
      r.secondaryRecommendations = v.secondaryRecommendations ∧
      some r.archetype = pickArchetype meta.archetypes
        (v.primaryRecommendations.map (fun m => m.id) ++
          v.secondaryRecommendations.map (fun m => m.id) ++
          v.mandatoryAI.toList.map (fun m => m.id)) ∧
      (r.congratulations = false → r.mandatoryAI = v.mandatoryAI) ∧
      (r.congratulations = true →
        r.mandatoryAI = moduleMapGet meta.modules cfg.alwaysStartAIAt ∧
        some r.archetype = pickArchetype meta.archetypes []) := by
  obtain ⟨v, hv, -, -, -, -, hp, hs, hcon, hman, -, harc⟩ := finish_eq_some cfg meta st r h
  obtain ⟨recs, hrecs, -, -, -, -, -, hp2, hs2, -, hids, harc2⟩ :=
    recommend_eq_some cfg meta st v hv
  have hsel : some r.archetype = pickArchetype meta.archetypes
      (v.primaryRecommendations.map (fun m => m.id) ++
        v.secondaryRecommendations.map (fun m => m.id) ++
        v.mandatoryAI.toList.map (fun m => m.id)) := by
    rw [← harc, harc2, hids]
    cases v.mandatoryAI <;> rfl
  refine ⟨v, hv, hp, hs, hsel, ?_, ?_⟩
  · intro hc
    rw [hman, hc]
    simp
  · intro hc
    refine ⟨by rw [hman, hc]; simp, ?_⟩
    rw [hcon] at hc
    simp only [Bool.and_eq_true, decide_eq_true_eq, List.length_eq_zero,
      Option.isNone_iff_eq_none] at hc
    obtain ⟨⟨hprim, hnone⟩, -⟩ := hc
    obtain ⟨h1, h2, -⟩ := rankLoop_spec cfg _ _ _ ⟨[], [], 0⟩ recs rfl hrecs
    simp only [List.nil_append, List.length_nil, Nat.sub_zero] at h1 h2
    have hsec : recs.secondaryRecommendations = [] := by
      rw [hp2, h1, List.take_eq_nil_iff] at hprim
      rw [h2]
      rcases hprim with h0 | hG
      · rw [h0]
        rfl
      · rw [hG]
        simp
    have hsec2 : v.secondaryRecommendations = [] := by
      rw [hs2, hsec]
      simp
    rw [hsel, hprim, hsec2, hnone]
    rfl

unseal Rat.add Rat.mul Rat.inv in
/-- C9 as amended, at the perfect run. -/
theorem archetype_selected_before_fallback_witness :
    finish sampleConfig sampleMeta perfectState = some perfectResult ∧
    ∃ v, recommend sampleConfig sampleMeta perfectState = some v ∧
      perfectResult.primaryRecommendations = v.primaryRecommendations ∧
      perfectResult.secondaryRecommendations = v.secondaryRecommendations ∧
      some perfectResult.archetype = pickArchetype sampleMeta.archetypes
        (v.primaryRecommendations.map (fun m => m.id) ++
          v.secondaryRecommendations.map (fun m => m.id) ++
          v.mandatoryAI.toList.map (fun m => m.id)) ∧
      (perfectResult.congratulations = false → perfectResult.mandatoryAI = v.mandatoryAI) ∧
      (perfectResult.congratulations = true →
        perfectResult.mandatoryAI =
          moduleMapGet sampleMeta.modules sampleConfig.alwaysStartAIAt ∧
        some perfectResult.archetype = pickArchetype sampleMeta.archetypes []) :=
  ⟨by decide,
    archetype_selected_before_fallback sampleConfig sampleMeta perfectState perfectResult
      (by decide)⟩

/-! ## The need ranking -/

/-- In a list sorted by key, an entry with a smaller key stands before one with a larger
key. -/
theorem pair_sublist_of_sorted_keys (l : List (Nat × ℚ)) (a b : Nat × ℚ)
    (hs : l.Sorted (fun x y => x.1 ≤ y.1)) (ha : a ∈ l) (hb : b ∈ l) (hab : a.1 < b.1) :
    [a, b].Sublist l := by
  induction l with
  | nil => cases ha
  | cons x rest ih =>
    have hs2 := List.sorted_cons.1 hs
    rcases List.mem_cons.1 ha with hax | har
    · subst hax
      rcases List.mem_cons.1 hb with hbx | hbr
      · subst hbx
        exact absurd hab (lt_irrefl _)
      · exact (List.singleton_sublist.2 hbr).cons₂ _
    · rcases List.mem_cons.1 hb with hbx | hbr
      · subst hbx
        exact absurd (hs2.1 a har) (not_le.2 hab)
      · exact (ih hs2.2 har hbr).cons _

/-- The order of `Object.entries`: array-index keys ascending, then the other keys in
creation order. -/
theorem objectEntries_order (o : JsObject) (a b : Nat × ℚ) (ha : a ∈ o) (hb : b ∈ o) :
    (isArrayIndex a.1 = true → isArrayIndex b.1 = true → a.1 < b.1 →
      [a, b].Sublist (objectEntries o)) ∧
    (isArrayIndex a.1 = true → isArrayIndex b.1 = false → [a, b].Sublist (objectEntries o)) ∧
    (isArrayIndex a.1 = false → isArrayIndex b.1 = false → [a, b].Sublist o →
      [a, b].Sublist (objectEntries o)) := by
  unfold objectEntries
  refine ⟨?_, ?_, ?_⟩
  · intro hia hib hab
    have hs : (List.insertionSort (fun x y : Nat × ℚ => x.1 ≤ y.1)
        (o.filter (fun e => isArrayIndex e.1))).Sorted (fun x y => x.1 ≤ y.1) := by
      haveI : IsTotal (Nat × ℚ) (fun x y => x.1 ≤ y.1) := ⟨fun x y => le_total x.1 y.1⟩
      haveI : IsTrans (Nat × ℚ) (fun x y => x.1 ≤ y.1) := ⟨fun _ _ _ h1 h2 => le_trans h1 h2⟩
      exact List.sorted_insertionSort _ _
    have hma : a ∈ List.insertionSort (fun x y : Nat × ℚ => x.1 ≤ y.1)
        (o.filter (fun e => isArrayIndex e.1)) :=
      (List.perm_insertionSort _ _).mem_iff.2 (List.mem_filter.2 ⟨ha, hia⟩)
    have hmb : b ∈ List.insertionSort (fun x y : Nat × ℚ => x.1 ≤ y.1)
        (o.filter (fun e => isArrayIndex e.1)) :=
      (List.perm_insertionSort _ _).mem_iff.2 (List.mem_filter.2 ⟨hb, hib⟩)
    exact (pair_sublist_of_sorted_keys _ a b hs hma hmb hab).trans
      (List.sublist_append_left _ _)
  · intro hia hib
    have hma : a ∈ List.insertionSort (fun x y : Nat × ℚ => x.1 ≤ y.1)
        (o.filter (fun e => isArrayIndex e.1)) :=
      (List.perm_insertionSort _ _).mem_iff.2 (List.mem_filter.2 ⟨ha, hia⟩)
    have hmb : b ∈ o.filter (fun e => !isArrayIndex e.1) :=
      List.mem_filter.2 ⟨hb, by simp [hib]⟩
    exact List.Sublist.append (List.singleton_sublist.2 hma) (List.singleton_sublist.2 hmb)
  · intro hia hib hsub
    have hf : ([a, b].filter (fun e => !isArrayIndex e.1)).Sublist
        (o.filter (fun e => !isArrayIndex e.1)) := hsub.filter _
    have hfe : [a, b].filter (fun e => !isArrayIndex e.1) = [a, b] := by
      simp [List.filter_cons, hia, hib]
    rw [hfe] at hf
    exact hf.trans (List.sublist_append_right _ _)

unseal Rat.add Rat.mul Rat.inv in
/-- C10 fails for the sample run: module 5 received need before module 2 and both have need
1, yet the ranking lists module 2 before module 5. -/
theorem ties_not_in_first_occurrence_order :
    gradeAll sampleConfig resetState sampleRun = .ok sampleState ∧
    sampleState.moduleNeeds = [(5, 1), (2, 1)] ∧
    sortedNeeds sampleState.moduleNeeds = [(2, 1), (5, 1)] ∧
    ¬ [((5 : Nat), (1 : ℚ)), (2, 1)].Sublist (sortedNeeds sampleState.moduleNeeds) := by
  refine ⟨rfl, rfl, by decide, by decide⟩

/-- C10 as amended: the ranking is a rearrangement of the `moduleNeeds` entries in
non-increasing order of need, and two entries with equal need stand in the order of
`Object.entries`: ascending id when both keys are array indices, an array-index key before
any other key, and creation order when neither key is an array index. -/
theorem sortedNeeds_order (o : JsObject) :
    (sortedNeeds o).Sorted (fun a b => b.2 ≤ a.2) ∧ (sortedNeeds o).Perm o ∧
    ∀ a ∈ o, ∀ b ∈ o, a.2 = b.2 →
      (isArrayIndex a.1 = true → isArrayIndex b.1 = true → a.1 < b.1 →
        [a, b].Sublist (sortedNeeds o)) ∧
      (isArrayIndex a.1 = true → isArrayIndex b.1 = false → [a, b].Sublist (sortedNeeds o)) ∧
      (isArrayIndex a.1 = false → isArrayIndex b.1 = false → [a, b].Sublist o →
        [a, b].Sublist (sortedNeeds o)) := by
  refine ⟨?_, sortedNeeds_perm o, ?_⟩
  · haveI : IsTotal (Nat × ℚ) (fun a b => b.2 ≤ a.2) := ⟨fun a b => le_total b.2 a.2⟩
    haveI : IsTrans (Nat × ℚ) (fun a b => b.2 ≤ a.2) := ⟨fun _ _ _ h1 h2 => le_trans h2 h1⟩
    exact List.sorted_insertionSort _ _
  · intro a ha b hb hab
    obtain ⟨h1, h2, h3⟩ := objectEntries_order o a b ha hb
    have hstable : [a, b].Sublist (objectEntries o) → [a, b].Sublist (sortedNeeds o) :=
      fun hsub => List.pair_sublist_insertionSort (le_of_eq hab.symm) hsub
    exact ⟨fun x y z => hstable (h1 x y z), fun x y => hstable (h2 x y),
      fun x y z => hstable (h3 x y z)⟩

/-- C10 as amended, at the sample state: modules 2 and 5 tie and are ranked by ascending
id. -/
theorem sortedNeeds_order_witness :
    ((2 : Nat), (1 : ℚ)) ∈ sampleState.moduleNeeds ∧ (5, 1) ∈ sampleState.moduleNeeds ∧
    [((2 : Nat), (1 : ℚ)), (5, 1)].Sublist (sortedNeeds sampleState.moduleNeeds) :=
  ⟨by decide, by decide,
    ((sortedNeeds_order sampleState.moduleNeeds).2.2 (2, 1) (by decide) (5, 1) (by decide)
      rfl).1 (by decide) (by decide) (by decide)⟩

/-! ## When the recommendation engine raises -/

theorem pickArchetype_eq_none_iff (arcs : List Archetype) (ids : List Nat) :
    pickArchetype arcs ids = none ↔ arcs = [] := by
  induction ids with
  | nil =>
    cases arcs with
    | nil => simp [pickArchetype]
    | cons a rest =>
      simp only [pickArchetype]
      split <;> simp
  | cons j rest ih =>
    cases hfind : arcs.find? (fun a => a.mapsTo.contains j) with
    | none => rw [pickArchetype_cons_of_not_find arcs j rest hfind, ih]
    | some a =>
      rw [pickArchetype_cons_of_find arcs j rest a hfind]
      constructor
      · intro h
        cases h
      · intro h
        rw [h] at hfind
        cases hfind

/-- Lines 130-202 raise exactly when some key of `moduleNeeds` has no module. -/
theorem recommend_eq_none_iff (cfg : Config) (meta : DataMeta) (st : State) :
    recommend cfg meta st = none ↔
      ∃ e ∈ st.moduleNeeds, moduleMapGet meta.modules e.1 = none := by
  constructor
  · intro h
    by_contra hne
    have hmods : ∀ e ∈ st.moduleNeeds, moduleMapGet meta.modules e.1 ≠ none :=
      fun e he hn => hne ⟨e, he, hn⟩
    obtain ⟨v, hv⟩ := recommend_isSome cfg meta st hmods
    rw [h] at hv
    cases hv
  · rintro ⟨e, he, hn⟩
    cases hrec : recommend cfg meta st with
    | none => rfl
    | some v =>
      obtain ⟨recs, hrecs, -⟩ := recommend_eq_some cfg meta st v hrec
      obtain ⟨-, -, hall⟩ := rankLoop_spec cfg _ _ _ ⟨[], [], 0⟩ recs rfl hrecs
      exact absurd hn (hall e ((sortedNeeds_perm st.moduleNeeds).mem_iff.2 he))

/-- The function `finish` raises exactly when some key of `moduleNeeds` has no module or
the archetype list is empty. -/
theorem finish_eq_none_iff (cfg : Config) (meta : DataMeta) (st : State) :
    finish cfg meta st = none ↔
      (∃ e ∈ st.moduleNeeds, moduleMapGet meta.modules e.1 = none) ∨ meta.archetypes = [] := by
  cases hrec : recommend cfg meta st with
  | none =>
    have h1 : finish cfg meta st = none := by
      unfold finish
      rw [hrec]
    rw [h1]
    simp only [true_iff]
    exact Or.inl ((recommend_eq_none_iff cfg meta st).1 hrec)
  | some v =>
    have hno : ¬ ∃ e ∈ st.moduleNeeds, moduleMapGet meta.modules e.1 = none := by
      intro hex
      rw [(recommend_eq_none_iff cfg meta st).2 hex] at hrec
      cases hrec
    obtain ⟨_, _, _, _, _, _, _, _, _, _, _, harc⟩ := recommend_eq_some cfg meta st v hrec
    cases ha : v.archetype with
    | none =>
      have h1 : finish cfg meta st = none := by
        unfold finish
        rw [hrec]
        simp only [ha]
      rw [h1]
      simp only [true_iff]
      right
      rw [harc] at ha
      exact (pickArchetype_eq_none_iff _ _).1 ha
    | some a =>
      have h1 : finish cfg meta st ≠ none := by
        unfold finish
        rw [hrec]
        simp only [ha]
        exact fun h => by cases h
      constructor
      · intro h
        exact absurd h h1
      · rintro (h | h)
        · exact absurd h hno
        · rw [harc, (pickArchetype_eq_none_iff _ _).2 h] at ha
          cases ha

/-- The function `finish` returns when every key of `moduleNeeds` has a module and there is
an archetype. -/
theorem finish_isSome (cfg : Config) (meta : DataMeta) (st : State)
    (hmods : ∀ e ∈ st.moduleNeeds, moduleMapGet meta.modules e.1 ≠ none)
    (harcs : meta.archetypes ≠ []) : ∃ r, finish cfg meta st = some r := by
  cases h : finish cfg meta st with
  | some r => exact ⟨r, rfl⟩
  | none =>
    rcases (finish_eq_none_iff cfg meta st).1 h with ⟨e, he, hn⟩ | h2
    · exact absurd hn (hmods e he)
    · exact absurd h2 harcs

/-! ## Session control and tallies -/

/-- C16: `start` replaces any prior session state, also that of a finished attempt, by the
fresh state: position 0, no answers, no module needs, and the four sections Foundations,
Applied, Advanced and Specialized at `{correct: 0, total: 0}`; the result does not depend
on the prior state, and resetting twice is resetting once. -/
theorem start_yields_fresh_state (s : State) :
    start s = { idx := 0, answers := [], moduleNeeds := [],
                sectionCounts := ⟨⟨0, 0⟩, ⟨0, 0⟩, ⟨0, 0⟩, ⟨0, 0⟩⟩ } ∧
    (start s).sectionCounts.get "Foundations" = some ⟨0, 0⟩ ∧
    (start s).sectionCounts.get "Applied" = some ⟨0, 0⟩ ∧
    (start s).sectionCounts.get "Advanced" = some ⟨0, 0⟩ ∧
    (start s).sectionCounts.get "Specialized" = some ⟨0, 0⟩ ∧
    (∀ name, (start s).sectionCounts.get name ≠ none ↔ name ∈ sectionNames) ∧
    (∀ m, (start s).moduleNeeds.get m = none) ∧
    (∀ s2 : State, start s2 = start s) ∧
    start (start s) = start s := by
  refine ⟨rfl, rfl, rfl, rfl, rfl, ?_, fun _ => rfl, fun _ => rfl, rfl⟩
  intro name
  simp only [start, resetState, SectionCounts.get, sectionNames, List.mem_cons,
    List.mem_singleton, List.not_mem_nil, or_false]
  by_cases h1 : name = "Foundations"
  · simp [h1]
  · by_cases h2 : name = "Applied"
    · simp [h2]
    · by_cases h3 : name = "Advanced"
      · simp [h3]
      · by_cases h4 : name = "Specialized"
        · simp [h4]
        · simp [h1, h2, h3, h4]

/-- The handler `grade` does not move the position, whether it returns or raises. -/
theorem grade_idx (cfg : Config) (st st1 : State) (q : Question) (c : Choice)
    (h : grade cfg st q c = .ok st1 ∨ grade cfg st q c = .error st1) : st1.idx = st.idx := by
  unfold grade at h
  simp only at h
  split at h
  · rcases h with h | h
    · cases h
    · cases h
      rfl
  · split at h
    · rcases h with h | h
      · cases h
        rfl
      · cases h
    · rcases h with h | h
      · cases h
        rfl
      · cases h

/-- C17: `next` increments the position by exactly one, leaves answers, module needs and
section counters unchanged, and takes the branch to `finish` iff the new position is at
least the number of questions; hence in every state reachable from `start` by grading and
by calling `next` only while the position is below the number of questions, the position
is at most the number of questions. -/
theorem next_increments_and_position_bounded (cfg : Config) (questions : List Question)
    (st : State) :
    (next questions st).1.idx = st.idx + 1 ∧
    (next questions st).1.answers = st.answers ∧
    (next questions st).1.moduleNeeds = st.moduleNeeds ∧
    (next questions st).1.sectionCounts = st.sectionCounts ∧
    ((next questions st).2 = true ↔ questions.length ≤ (next questions st).1.idx) ∧
    (Reachable cfg questions st → st.idx ≤ questions.length) := by
  refine ⟨rfl, rfl, rfl, rfl, by simp [next], ?_⟩
  intro h
  induction h with
  | started => exact Nat.zero_le _
  | graded s s1 q c _ hg ih =>
    rw [grade_idx cfg s s1 q c (Or.inl hg)]
    exact ih
  | gradeRaised s s1 q c _ hg ih =>
    rw [grade_idx cfg s s1 q c (Or.inr hg)]
    exact ih
  | advanced s _ hlt _ =>
    show s.idx + 1 ≤ questions.length
    exact hlt

/-- C17 at the sample questions: one answer graded, then `next`. -/
theorem next_increments_and_position_bounded_witness :
    Reachable sampleConfig sampleQuestions
      (next sampleQuestions
        { resetState with
          answers := [⟨1, false⟩]
          moduleNeeds := [(5, 1)]
          sectionCounts := ⟨⟨0, 0⟩, ⟨0, 1⟩, ⟨0, 0⟩, ⟨0, 0⟩⟩ }).1 ∧
    (next sampleQuestions
        { resetState with
          answers := [⟨1, false⟩]
          moduleNeeds := [(5, 1)]
          sectionCounts := ⟨⟨0, 0⟩, ⟨0, 1⟩, ⟨0, 0⟩, ⟨0, 0⟩⟩ }).1.idx ≤ sampleQuestions.length :=
  have hreach : Reachable sampleConfig sampleQuestions
      (next sampleQuestions
        { resetState with
          answers := [⟨1, false⟩]
          moduleNeeds := [(5, 1)]
          sectionCounts := ⟨⟨0, 0⟩, ⟨0, 1⟩, ⟨0, 0⟩, ⟨0, 0⟩⟩ }).1 :=
    Reachable.advanced _
      (Reachable.graded resetState _ ⟨1, "Applied", false, [5]⟩ wrongChoice
        Reachable.started (by simp [grade, resetState, SectionCounts.get, SectionCounts.put,
          wrongChoice, sampleConfig, addNeeds, JsObject.set, JsObject.get, orZero]))
      (by decide)
  ⟨hreach, (next_increments_and_position_bounded sampleConfig sampleQuestions _).2.2.2.2.2
    hreach⟩

/-- One graded answer of a recognised section keeps the tallies consistent. -/
theorem grade_tallied (cfg : Config) (st st1 : State) (q : Question) (c : Choice)
    (hsec : q.sectionName ∈ sectionNames) (hg : grade cfg st q c = .ok st1)
    (hinv : Tallied st) : Tallied st1 := by
  obtain ⟨⟨i1, i2, i3, i4⟩, ilen, icor⟩ := hinv
  simp only [sectionNames, List.mem_cons, List.mem_singleton, List.not_mem_nil,
    or_false] at hsec
  unfold grade at hg
  cases hc : c.isCorrect <;>
  rcases hsec with h | h | h | h <;>
  · simp only [h, hc, SectionCounts.get] at hg
    simp at hg
    subst hg
    simp only [Tallied, SectionCounts.put, List.length_append, List.filter_append]
    simp
    omega

/-- Every run over recognised sections keeps the tallies consistent. -/
theorem gradeAll_tallied (cfg : Config) (l : List (Question × Choice)) :
    ∀ st st1 : State, (∀ qc ∈ l, qc.1.sectionName ∈ sectionNames) →
      gradeAll cfg st l = .ok st1 → Tallied st → Tallied st1 := by
  induction l with
  | nil =>
    intro st st1 _ hrun hinv
    simp only [gradeAll, Except.ok.injEq] at hrun
    subst hrun
    exact hinv
  | cons qc rest ih =>
    intro st st1 hrec hrun hinv
    obtain ⟨q, c⟩ := qc
    simp only [gradeAll] at hrun
    cases hg : grade cfg st q c with
    | error s => simp [hg] at hrun
    | ok s =>
      simp only [hg] at hrun
      exact ih s st1 (fun x hx => hrec x (List.mem_cons_of_mem _ hx)) hrun
        (grade_tallied cfg st s q c (hrec (q, c) (List.mem_cons_self _ _)) hg hinv)

theorem pct_mem_unit (s : SectionCount) (h : s.correct ≤ s.total) : 0 ≤ pct s ∧ pct s ≤ 1 := by
  unfold pct
  by_cases h0 : s.total = 0
  · simp [h0]
  · have hpos : (0 : ℚ) < (s.total : ℚ) := by exact_mod_cast Nat.pos_of_ne_zero h0
    have hle : (s.correct : ℚ) ≤ (s.total : ℚ) := by exact_mod_cast h
    simp only [ne_eq, h0, not_false_eq_true, if_true]
    exact ⟨div_nonneg (by exact_mod_cast Nat.zero_le _) hpos.le, (div_le_one hpos).2 hle⟩

/-- C20: every run from the fresh state over questions of the four recognised sections
returns, and in the state it reaches each section has `correct ≤ total` (so each percentage
lies between 0 and 1), the number of answers is the sum of the four totals, and the number
of answers recorded as correct is the sum of the four `correct` counters. -/
theorem tallies_consistent (cfg : Config) (l : List (Question × Choice))
    (hsec : ∀ qc ∈ l, qc.1.sectionName ∈ sectionNames) :
    ∃ st, gradeAll cfg resetState l = .ok st ∧
      (st.sectionCounts.Foundations.correct ≤ st.sectionCounts.Foundations.total ∧
        st.sectionCounts.Applied.correct ≤ st.sectionCounts.Applied.total ∧
        st.sectionCounts.Advanced.correct ≤ st.sectionCounts.Advanced.total ∧
        st.sectionCounts.Specialized.correct ≤ st.sectionCounts.Specialized.total) ∧
      (0 ≤ pct st.sectionCounts.Foundations ∧ pct st.sectionCounts.Foundations ≤ 1 ∧
        0 ≤ pct st.sectionCounts.Applied ∧ pct st.sectionCounts.Applied ≤ 1 ∧
        0 ≤ pct st.sectionCounts.Advanced ∧ pct st.sectionCounts.Advanced ≤ 1 ∧
        0 ≤ pct st.sectionCounts.Specialized ∧ pct st.sectionCounts.Specialized ≤ 1) ∧
      st.answers.length =
        st.sectionCounts.Foundations.total + st.sectionCounts.Applied.total +
          st.sectionCounts.Advanced.total + st.sectionCounts.Specialized.total ∧
      (st.answers.filter (fun a => a.correct)).length =
        st.sectionCounts.Foundations.correct + st.sectionCounts.Applied.correct +
          st.sectionCounts.Advanced.correct + st.sectionCounts.Specialized.correct := by
  obtain ⟨st, hrun, -⟩ := gradeAll_spec cfg l resetState hsec
  have h0 : Tallied resetState := by
    simp [Tallied, resetState]
  obtain ⟨⟨i1, i2, i3, i4⟩, ilen, icor⟩ := gradeAll_tallied cfg l resetState st hsec hrun h0
  have p1 := pct_mem_unit _ i1
  have p2 := pct_mem_unit _ i2
  have p3 := pct_mem_unit _ i3
  have p4 := pct_mem_unit _ i4
  exact ⟨st, hrun, ⟨i1, i2, i3, i4⟩,
    ⟨p1.1, p1.2, p2.1, p2.2, p3.1, p3.2, p4.1, p4.2⟩, ilen, icor⟩

/-- C20 at `sampleRun`. -/
theorem tallies_consistent_witness :
    ∃ st, gradeAll sampleConfig resetState sampleRun = .ok st ∧
      (st.sectionCounts.Foundations.correct ≤ st.sectionCounts.Foundations.total ∧
        st.sectionCounts.Applied.correct ≤ st.sectionCounts.Applied.total ∧
        st.sectionCounts.Advanced.correct ≤ st.sectionCounts.Advanced.total ∧
        st.sectionCounts.Specialized.correct ≤ st.sectionCounts.Specialized.total) ∧
      (0 ≤ pct st.sectionCounts.Foundations ∧ pct st.sectionCounts.Foundations ≤ 1 ∧
        0 ≤ pct st.sectionCounts.Applied ∧ pct st.sectionCounts.Applied ≤ 1 ∧
        0 ≤ pct st.sectionCounts.Advanced ∧ pct st.sectionCounts.Advanced ≤ 1 ∧
        0 ≤ pct st.sectionCounts.Specialized ∧ pct st.sectionCounts.Specialized ≤ 1) ∧
      st.answers.length =
        st.sectionCounts.Foundations.total + st.sectionCounts.Applied.total +
          st.sectionCounts.Advanced.total + st.sectionCounts.Specialized.total ∧
      (st.answers.filter (fun a => a.correct)).length =
        st.sectionCounts.Foundations.correct + st.sectionCounts.Applied.correct +
          st.sectionCounts.Advanced.correct + st.sectionCounts.Specialized.correct :=
  tallies_consistent sampleConfig sampleRun (by decide)

/-! ## The no-weakness branch and distinct listings -/

/-- C18: when the module `alwaysStartAIAt` exists, an empty primary list together with no
mandatory module at line 202 forces the Advanced percentage to be at least its threshold;
hence, whenever `finish` enters the no-weakness test with both conditions true, it takes the
congratulations branch, and the need-score fallback list is never rendered. -/
theorem fallback_branch_unreachable (cfg : Config) (meta : DataMeta) (st : State)
    (ai : Module) (hai : moduleMapGet meta.modules cfg.alwaysStartAIAt = some ai) :
    (∀ v, recommend cfg meta st = some v → v.primaryRecommendations = [] →
      v.mandatoryAI = none → v.advancedPct ≥ cfg.sectionThresholds.advanced) ∧
    (∀ r v, finish cfg meta st = some r → recommend cfg meta st = some v →
      (v.primaryRecommendations = [] → v.mandatoryAI = none → r.congratulations = true) ∧
      r.fallbackPrimary = []) := by
  have key : ∀ v, recommend cfg meta st = some v → v.primaryRecommendations = [] →
      v.mandatoryAI = none → v.advancedPct ≥ cfg.sectionThresholds.advanced := by
    intro v hv hprim hnone
    have hsec := recommend_secondary_nil cfg meta st v hv hprim
    have hmand := recommend_mandatory cfg meta st v hv
    obtain ⟨recs, -, -, -, hadv, hser, -⟩ := recommend_eq_some cfg meta st v hv
    by_contra hlt
    have hlt2 : v.advancedPct < cfg.sectionThresholds.advanced := not_le.1 hlt
    have hA : "AI/Specialized" ∈ v.seriesToConsider := by
      rw [hser, mem_seriesToConsider]
      right
      right
      exact ⟨rfl, by rw [← hadv]; exact hlt2⟩
    have hcond : "AI/Specialized" ∈ v.seriesToConsider ∧
        (∀ sm ∈ v.primaryRecommendations, sm.id ≠ cfg.alwaysStartAIAt) ∧
        (∀ sm ∈ v.secondaryRecommendations, sm.id ≠ cfg.alwaysStartAIAt) := by
      rw [hprim, hsec]
      exact ⟨hA, by simp, by simp⟩
    rw [hmand, if_pos hcond, hai] at hnone
    cases hnone
  refine ⟨key, ?_⟩
  intro r v hr hv
  obtain ⟨v2, hv2, -, -, -, -, -, -, hcon, -, hfb, -⟩ := finish_eq_some cfg meta st r hr
  rw [hv] at hv2
  cases hv2
  have hcongr : v.primaryRecommendations = [] → v.mandatoryAI = none →
      r.congratulations = true := by
    intro hprim hnone
    rw [hcon]
    simp [hprim, hnone, key v hv hprim hnone]
  refine ⟨hcongr, ?_⟩
  rw [hfb]
  by_cases hprim : v.primaryRecommendations = []
  · by_cases hnone : v.mandatoryAI = none
    · simp [hcongr hprim hnone]
    · cases hm : v.mandatoryAI with
      | none => exact absurd hm hnone
      | some m => simp
  · simp [hprim]

unseal Rat.add Rat.mul Rat.inv in
/-- C18 at the perfect run: the lists are empty, no mandatory module is set at line 202, and
the congratulations branch is taken. -/
theorem fallback_branch_unreachable_witness :
    moduleMapGet sampleMeta.modules sampleConfig.alwaysStartAIAt = some ⟨11, "AI 101", "AI"⟩ ∧
    (∀ v, recommend sampleConfig sampleMeta perfectState = some v →
      v.primaryRecommendations = [] → v.mandatoryAI = none →
      v.advancedPct ≥ sampleConfig.sectionThresholds.advanced) ∧
    (∀ r v, finish sampleConfig sampleMeta perfectState = some r →
      recommend sampleConfig sampleMeta perfectState = some v →
      (v.primaryRecommendations = [] → v.mandatoryAI = none → r.congratulations = true) ∧
      r.fallbackPrimary = []) :=
  ⟨by decide,
    fallback_branch_unreachable sampleConfig sampleMeta perfectState ⟨11, "AI 101", "AI"⟩
      (by decide)⟩

/-- C19: when the keys of `moduleNeeds` are distinct (it is an object), the ids listed in
the primary list followed by the secondary list are pairwise distinct, at line 202 and in
the result of `finish`, and the removal of the module `alwaysStartAIAt` from the secondary
list (line 188) leaves that list as the loop built it. -/
theorem listed_ids_distinct (cfg : Config) (meta : DataMeta) (st : State)
    (hkeys : (st.moduleNeeds.map Prod.fst).Nodup) :
    (∀ v, recommend cfg meta st = some v →
      ((v.primaryRecommendations ++ v.secondaryRecommendations).map (fun m => m.id)).Nodup ∧
      ∃ recs, rankLoop cfg (seriesToConsider cfg st.sectionCounts) meta.modules
          (sortedNeeds st.moduleNeeds) ⟨[], [], 0⟩ = some recs ∧
        ((recs.primaryRecommendations ++ recs.secondaryRecommendations).map
          (fun m => m.id)).Nodup ∧
        (recs.primaryRecommendations.any (fun m => m.id = cfg.alwaysStartAIAt) = true →
          recs.secondaryRecommendations.filter (fun m => m.id ≠ cfg.alwaysStartAIAt) =
            recs.secondaryRecommendations) ∧
        v.primaryRecommendations = recs.primaryRecommendations ∧
        v.secondaryRecommendations = recs.secondaryRecommendations) ∧
    (∀ r, finish cfg meta st = some r →
      ((r.primaryRecommendations ++ r.secondaryRecommendations).map (fun m => m.id)).Nodup) := by
  have key : ∀ v, recommend cfg meta st = some v →
      ((v.primaryRecommendations ++ v.secondaryRecommendations).map (fun m => m.id)).Nodup :=
    fun v hv => recommend_ids_nodup cfg meta st v hkeys hv
  constructor
  · intro v hv
    refine ⟨key v hv, ?_⟩
    obtain ⟨recs, hrecs, -, -, -, -, -, hp, hs, -⟩ := recommend_eq_some cfg meta st v hv
    obtain ⟨h1, h2, -⟩ := rankLoop_spec cfg _ _ _ ⟨[], [], 0⟩ recs rfl hrecs
    simp only [List.nil_append, List.length_nil, Nat.sub_zero] at h1 h2
    obtain ⟨l1, l2⟩ := recommend_lists cfg meta st v hkeys hv
    have hsame : v.secondaryRecommendations = recs.secondaryRecommendations := by
      rw [l2, h2]
    refine ⟨recs, hrecs, ?_, ?_, hp, hsame⟩
    · rw [← hp, ← hsame]
      exact key v hv
    · intro hany
      rw [h1] at hany
      rw [h2]
      exact filter_drop_of_mem_take _ _ _ _ (gatedRanking_ids_nodup _ _ _ hkeys) hany
  · intro r hr
    obtain ⟨v, hv, -, -, -, -, hp, hs, -⟩ := finish_eq_some cfg meta st r hr
    rw [hp, hs]
    exact key v hv

unseal Rat.add Rat.mul Rat.inv in
/-- C19 at `aiState` with a cap of one: module 5 is primary and module 11 secondary. -/
theorem listed_ids_distinct_witness :
    recommend tightConfig sampleMeta aiState = some aiRecommendation ∧
    ((aiRecommendation.primaryRecommendations ++
      aiRecommendation.secondaryRecommendations).map (fun m => m.id)).Nodup :=
  ⟨by decide,
    ((listed_ids_distinct tightConfig sampleMeta aiState (by decide)).1 aiRecommendation
      (by decide)).1⟩

theorem JsObject.get_ne_none_iff (o : JsObject) (k : Nat) :
    o.get k ≠ none ↔ ∃ e ∈ o, e.1 = k := by
  induction o with
  | nil => simp [JsObject.get]
  | cons e rest ih =>
    obtain ⟨k1, v1⟩ := e
    by_cases h : k1 = k
    · simp [JsObject.get, h]
    · simp only [JsObject.get, h, if_false, ih, List.mem_cons, exists_eq_or_imp, false_or]

/-- C15: when some incorrectly answered question carries a tag that no module has, the run
itself returns, `moduleNeeds` then has a key without a module, and lines 130-202 (hence
`finish`) raise instead of returning a result, for every configuration and whatever the
section counters are. -/
theorem missing_tagged_module_raises (cfg : Config) (meta : DataMeta)
    (l : List (Question × Choice)) (hsec : ∀ qc ∈ l, qc.1.sectionName ∈ sectionNames)
    (hbad : ∃ qc ∈ l, qc.2.isCorrect = false ∧
      ∃ t ∈ qc.1.tags, moduleMapGet meta.modules t = none) :
    ∃ st, gradeAll cfg resetState l = .ok st ∧
      (∃ e ∈ st.moduleNeeds, moduleMapGet meta.modules e.1 = none) ∧
      recommend cfg meta st = none ∧ finish cfg meta st = none ∧
      ∀ (cfg2 : Config) (st2 : State), st2.moduleNeeds = st.moduleNeeds →
        recommend cfg2 meta st2 = none ∧ finish cfg2 meta st2 = none := by
  obtain ⟨st, hrun, -, hnone, -⟩ := gradeAll_spec cfg l resetState hsec
  obtain ⟨qc, hqc, hwrong, t, ht, hmiss⟩ := hbad
  have hkey : st.moduleNeeds.get t ≠ none := by
    intro hn
    exact ((hnone t).1 hn).2 qc hqc hwrong ht
  obtain ⟨e, he, hek⟩ := (JsObject.get_ne_none_iff _ _).1 hkey
  have hex : ∃ e ∈ st.moduleNeeds, moduleMapGet meta.modules e.1 = none :=
    ⟨e, he, by rw [hek]; exact hmiss⟩
  refine ⟨st, hrun, hex, (recommend_eq_none_iff cfg meta st).2 hex,
    (finish_eq_none_iff cfg meta st).2 (Or.inl hex), ?_⟩
  intro cfg2 st2 hsame
  have hex2 : ∃ e ∈ st2.moduleNeeds, moduleMapGet meta.modules e.1 = none := by
    rw [hsame]
    exact hex
  exact ⟨(recommend_eq_none_iff cfg2 meta st2).2 hex2,
    (finish_eq_none_iff cfg2 meta st2).2 (Or.inl hex2)⟩

/-- C15 at a run whose wrong answer is tagged 7, an id that no sample module has. -/
theorem missing_tagged_module_raises_witness :
    ∃ st, gradeAll sampleConfig resetState [(⟨1, "Applied", false, [7]⟩, wrongChoice)]
        = .ok st ∧
      (∃ e ∈ st.moduleNeeds, moduleMapGet sampleMeta.modules e.1 = none) ∧
      recommend sampleConfig sampleMeta st = none ∧ finish sampleConfig sampleMeta st = none ∧
      ∀ (cfg2 : Config) (st2 : State), st2.moduleNeeds = st.moduleNeeds →
        recommend cfg2 sampleMeta st2 = none ∧ finish cfg2 sampleMeta st2 = none :=
  missing_tagged_module_raises sampleConfig sampleMeta
    [(⟨1, "Applied", false, [7]⟩, wrongChoice)] (by decide)
    ⟨(⟨1, "Applied", false, [7]⟩, wrongChoice), by decide, rfl, 7, by decide, by decide⟩

unseal Rat.add Rat.mul Rat.inv in
/-- C14 fails: with `alwaysStartAIAt = 99`, an id that no module has, `finish` returns a
result for the perfect run, without a mandatory module. -/
theorem missing_ai_module_raises_nothing :
    moduleMapGet sampleMeta.modules orphanConfig.alwaysStartAIAt = none ∧
    gradeAll orphanConfig resetState perfectRun = .ok perfectState ∧
    finish orphanConfig sampleMeta perfectState = some orphanResult ∧
    finish orphanConfig sampleMeta perfectState ≠ none ∧
    orphanResult.mandatoryAI = none := by
  refine ⟨by decide, rfl, by decide, by decide, rfl⟩

/-- C14 as amended: when no module has the id `alwaysStartAIAt`, that by itself raises
nothing: `finish` raises only when a key of `moduleNeeds` has no module or the archetype
list is empty, it returns otherwise, and every result it returns has no mandatory module. -/
theorem missing_ai_module_is_left_out (cfg : Config) (meta : DataMeta) (st : State)
    (hai : moduleMapGet meta.modules cfg.alwaysStartAIAt = none) :
    (finish cfg meta st = none ↔
      (∃ e ∈ st.moduleNeeds, moduleMapGet meta.modules e.1 = none) ∨ meta.archetypes = []) ∧
    ((∀ e ∈ st.moduleNeeds, moduleMapGet meta.modules e.1 ≠ none) → meta.archetypes ≠ [] →
      ∃ r, finish cfg meta st = some r) ∧
    (∀ r, finish cfg meta st = some r → r.mandatoryAI = none) := by
  refine ⟨finish_eq_none_iff cfg meta st, finish_isSome cfg meta st, ?_⟩
  intro r hr
  obtain ⟨v, hv, -, -, -, -, -, -, -, hman, -⟩ := finish_eq_some cfg meta st r hr
  have hmand := recommend_mandatory cfg meta st v hv
  rw [hai] at hmand hman
  have hvnone : v.mandatoryAI = none := by
    rw [hmand]
    split <;> rfl
  rw [hman, hvnone]
  split <;> rfl

unseal Rat.add Rat.mul Rat.inv in
/-- C14 as amended, at the perfect run under `orphanConfig`. -/
theorem missing_ai_module_is_left_out_witness :
    moduleMapGet sampleMeta.modules orphanConfig.alwaysStartAIAt = none ∧
    (∃ r, finish orphanConfig sampleMeta perfectState = some r) ∧
    (∀ r, finish orphanConfig sampleMeta perfectState = some r → r.mandatoryAI = none) :=
  have h := missing_ai_module_is_left_out orphanConfig sampleMeta perfectState (by decide)
  ⟨by decide, h.2.1 (by decide) (by decide), h.2.2⟩

/-! ## Scenarios -/

theorem sortedNeeds_nil : sortedNeeds [] = [] := rfl

/-- With no module need, lines 130-202 return and both lists are empty. -/
theorem recommend_of_needs_nil (cfg : Config) (meta : DataMeta) (st : State)
    (hnil : st.moduleNeeds = []) :
    ∃ v, recommend cfg meta st = some v ∧ v.primaryRecommendations = [] ∧
      v.secondaryRecommendations = [] := by
  obtain ⟨v, hv⟩ := recommend_isSome cfg meta st (by rw [hnil]; simp)
  obtain ⟨h1, h2⟩ := recommend_lists cfg meta st v (by rw [hnil]; simp) hv
  rw [hnil, sortedNeeds_nil, gatedRanking_nil] at h1 h2
  exact ⟨v, hv, by rw [h1]; simp, by rw [h2]; simp⟩

unseal Rat.add Rat.mul Rat.inv in
/-- C12 fails: after wrong answers on untagged questions every percentage is below its
threshold and `moduleNeeds` is empty, yet the result has module 11 as mandatory module and
its archetype is `pathfinder`, not `asker-of-why`. -/
theorem empty_needs_still_recommend_ai_entry :
    gradeAll sampleConfig resetState untaggedRun = .ok untaggedState ∧
    untaggedState.moduleNeeds = [] ∧
    finish sampleConfig sampleMeta untaggedState = some untaggedResult ∧
    untaggedResult.foundationsPct < sampleConfig.sectionThresholds.foundations ∧
    untaggedResult.appliedPct < sampleConfig.sectionThresholds.applied ∧
    untaggedResult.advancedPct < sampleConfig.sectionThresholds.advanced ∧
    untaggedResult.mandatoryAI = some ⟨11, "AI 101", "AI"⟩ ∧
    untaggedResult.mandatoryAI ≠ none ∧
    untaggedResult.archetype.id = "pathfinder" ∧
    untaggedResult.archetype.id ≠ "asker-of-why" := by
  refine ⟨rfl, rfl, by decide, by decide, by decide, by decide, rfl, by decide, rfl,
    by decide⟩

/-- C12 as amended: when the Advanced percentage is below its threshold and `moduleNeeds`
is empty, lines 130-202 return, and `finish` returns whenever there is an archetype; in
every result both lists and the need-score fallback list are empty and the congratulations
branch is not taken, the mandatory module is the module `alwaysStartAIAt` when it exists
(none otherwise), and the archetype is archetype selection applied to the id of that
module alone (to the empty list when the module does not exist). -/
theorem empty_needs_result (cfg : Config) (meta : DataMeta) (st : State)
    (hadv : pct st.sectionCounts.Advanced < cfg.sectionThresholds.advanced)
    (hnil : st.moduleNeeds = []) :
    (∃ v, recommend cfg meta st = some v) ∧
    (meta.archetypes ≠ [] → ∃ r, finish cfg meta st = some r) ∧
    ∀ r, finish cfg meta st = some r →
      r.primaryRecommendations = [] ∧ r.secondaryRecommendations = [] ∧
      r.fallbackPrimary = [] ∧ r.congratulations = false ∧
      r.mandatoryAI = moduleMapGet meta.modules cfg.alwaysStartAIAt ∧
      some r.archetype = pickArchetype meta.archetypes
        ((moduleMapGet meta.modules cfg.alwaysStartAIAt).toList.map (fun m => m.id)) := by
  obtain ⟨v, hv, hprim, hsecn⟩ := recommend_of_needs_nil cfg meta st hnil
  refine ⟨⟨v, hv⟩, finish_isSome cfg meta st (by rw [hnil]; simp), ?_⟩
  intro r hr
  obtain ⟨v2, hv2, -, -, hadv2, -, hp, hs, hcon, hman, hfb, harc⟩ :=
    finish_eq_some cfg meta st r hr
  rw [hv] at hv2
  cases hv2
  obtain ⟨recs, -, -, -, hadv3, hser, hsorted, -, -, -, hids, harc2⟩ :=
    recommend_eq_some cfg meta st v hv
  have hmand := recommend_mandatory cfg meta st v hv
  have hA : "AI/Specialized" ∈ v.seriesToConsider := by
    rw [hser, mem_seriesToConsider]
    right
    right
    exact ⟨rfl, hadv⟩
  have hcond : "AI/Specialized" ∈ v.seriesToConsider ∧
      (∀ sm ∈ v.primaryRecommendations, sm.id ≠ cfg.alwaysStartAIAt) ∧
      (∀ sm ∈ v.secondaryRecommendations, sm.id ≠ cfg.alwaysStartAIAt) := by
    rw [hprim, hsecn]
    exact ⟨hA, by simp, by simp⟩
  rw [if_pos hcond] at hmand
  have hcon2 : r.congratulations = false := by
    rw [hcon]
    have : ¬ (v.advancedPct ≥ cfg.sectionThresholds.advanced) := by
      rw [hadv3]
      exact not_le.2 hadv
    simp [this]
  have hman2 : r.mandatoryAI = moduleMapGet meta.modules cfg.alwaysStartAIAt := by
    rw [hman, hcon2, ← hmand]
    simp
  refine ⟨by rw [hp, hprim], by rw [hs, hsecn], ?_, hcon2, hman2, ?_⟩
  · rw [hfb, hsorted, hnil, sortedNeeds_nil]
    simp
  · rw [← harc, harc2, hids, hprim, hsecn, hmand]
    cases moduleMapGet meta.modules cfg.alwaysStartAIAt <;> rfl

unseal Rat.add Rat.mul Rat.inv in
/-- C12 as amended, at `untaggedState`. -/
theorem empty_needs_result_witness :
    pct untaggedState.sectionCounts.Advanced < sampleConfig.sectionThresholds.advanced ∧
    untaggedState.moduleNeeds = [] ∧
    (∃ r, finish sampleConfig sampleMeta untaggedState = some r) ∧
    ∀ r, finish sampleConfig sampleMeta untaggedState = some r →
      r.primaryRecommendations = [] ∧ r.secondaryRecommendations = [] ∧
      r.fallbackPrimary = [] ∧ r.congratulations = false ∧
      r.mandatoryAI = moduleMapGet sampleMeta.modules sampleConfig.alwaysStartAIAt ∧
      some r.archetype = pickArchetype sampleMeta.archetypes
        ((moduleMapGet sampleMeta.modules sampleConfig.alwaysStartAIAt).toList.map
          (fun m => m.id)) :=
  have h := empty_needs_result sampleConfig sampleMeta untaggedState (by decide) rfl
  ⟨by decide, rfl, h.2.1 (by decide), h.2.2⟩

theorem JsObject.eq_nil_of_get_none (o : JsObject) (h : ∀ m, o.get m = none) : o = [] := by
  cases o with
  | nil => rfl
  | cons e rest =>
    have := h e.1
    simp [JsObject.get] at this

/-- The counters of the three gating sections and the needs after a run from the fresh
state. -/
theorem gradeAll_reset_spec (cfg : Config) (l : List (Question × Choice))
    (hsec : ∀ qc ∈ l, qc.1.sectionName ∈ sectionNames) :
    ∃ st, gradeAll cfg resetState l = .ok st ∧
      (∀ s, s = "Foundations" ∨ s = "Applied" ∨ s = "Advanced" →
        ∃ x, st.sectionCounts.get s = some x ∧
          x.total = (l.filter (fun qc => qc.1.sectionName = s)).length ∧
          x.correct =
            (l.filter (fun qc => qc.1.sectionName = s ∧ qc.2.isCorrect = true)).length) ∧
      (∀ m, orZero (st.moduleNeeds.get m) =
        (l.map (fun qc => if qc.2.isCorrect = true then 0 else
          (qc.1.tags.count m : ℚ) *
            (if qc.1.anchor = true then cfg.anchorWeight else cfg.nonAnchorWeight))).sum) ∧
      (∀ m, st.moduleNeeds.get m = none ↔
        ∀ qc ∈ l, qc.2.isCorrect = false → m ∉ qc.1.tags) ∧
      (st.moduleNeeds.map Prod.fst).Nodup := by
  obtain ⟨st, hrun, hsum, hnone, hcnt⟩ := gradeAll_spec cfg l resetState hsec
  refine ⟨st, hrun, ?_, ?_, ?_, ?_⟩
  · intro s hs
    have hmem : s ∈ sectionNames := by
      rcases hs with h | h | h <;> simp [sectionNames, h]
    obtain ⟨x, x1, hx, hx1, ht, hc⟩ := hcnt s hmem
    have hx0 : x = ⟨0, 0⟩ := by
      rcases hs with h | h | h <;>
      · subst h
        simp [resetState, SectionCounts.get] at hx
        exact hx.symm
    subst hx0
    exact ⟨x1, hx1, by simpa using ht, by simpa using hc⟩
  · intro m
    rw [hsum m]
    simp [resetState, JsObject.get, orZero]
  · intro m
    rw [hnone m]
    simp [resetState, JsObject.get]
  · exact gradeAll_keys_nodup cfg l resetState st (by simp [resetState]) hrun

theorem pct_eq_one (s : SectionCount) (h : s.correct = s.total) (h0 : s.total ≠ 0) :
    pct s = 1 := by
  unfold pct
  have hpos : ((s.total : ℕ) : ℚ) ≠ 0 := by exact_mod_cast h0
  simp only [ne_eq, h0, not_false_eq_true, if_true, h]
  exact div_self hpos

/-- C11: when every answer is correct, each gating section has a question, every threshold
is at most 1 and the module `alwaysStartAIAt` exists, the run returns with no module need
and all three percentages equal to 1, `seriesToConsider` and both lists are empty, no
mandatory module is set at line 202, `finish` returns whenever there is an archetype, and
every result takes the congratulations branch (not the need-score fallback) with the
module `alwaysStartAIAt` as mandatory module. -/
theorem perfect_run_congratulates (cfg : Config) (meta : DataMeta)
    (l : List (Question × Choice)) (ai : Module)
    (hsec : ∀ qc ∈ l, qc.1.sectionName ∈ sectionNames)
    (hright : ∀ qc ∈ l, qc.2.isCorrect = true)
    (hF : ∃ qc ∈ l, qc.1.sectionName = "Foundations")
    (hA : ∃ qc ∈ l, qc.1.sectionName = "Applied")
    (hD : ∃ qc ∈ l, qc.1.sectionName = "Advanced")
    (hthr : cfg.sectionThresholds.foundations ≤ 1 ∧ cfg.sectionThresholds.applied ≤ 1 ∧
      cfg.sectionThresholds.advanced ≤ 1)
    (hai : moduleMapGet meta.modules cfg.alwaysStartAIAt = some ai) :
    ∃ st, gradeAll cfg resetState l = .ok st ∧ st.moduleNeeds = [] ∧
      pct st.sectionCounts.Foundations = 1 ∧ pct st.sectionCounts.Applied = 1 ∧
      pct st.sectionCounts.Advanced = 1 ∧ seriesToConsider cfg st.sectionCounts = [] ∧
      (∃ v, recommend cfg meta st = some v ∧ v.primaryRecommendations = [] ∧
        v.secondaryRecommendations = [] ∧ v.mandatoryAI = none) ∧
      (meta.archetypes ≠ [] → ∃ r, finish cfg meta st = some r) ∧
      ∀ r, finish cfg meta st = some r →
        r.foundationsPct = 1 ∧ r.appliedPct = 1 ∧ r.advancedPct = 1 ∧
        r.seriesToConsider = [] ∧ r.primaryRecommendations = [] ∧
        r.secondaryRecommendations = [] ∧ r.mandatoryAI = some ai ∧
        r.congratulations = true ∧ r.fallbackPrimary = [] := by
  obtain ⟨st, hrun, hcnt, -, hnone, -⟩ := gradeAll_reset_spec cfg l hsec
  have hnil : st.moduleNeeds = [] := by
    apply JsObject.eq_nil_of_get_none
    intro m
    rw [hnone m]
    intro qc hqc hw
    rw [hright qc hqc] at hw
    cases hw
  have hone : ∀ s, s = "Foundations" ∨ s = "Applied" ∨ s = "Advanced" →
      (∃ qc ∈ l, qc.1.sectionName = s) →
      ∃ x, st.sectionCounts.get s = some x ∧ pct x = 1 := by
    intro s hs hex
    obtain ⟨x, hx, ht, hc⟩ := hcnt s hs
    refine ⟨x, hx, pct_eq_one x ?_ ?_⟩
    · rw [ht, hc]
      congr 1
      apply List.filter_congr
      intro qc hqc
      simp [hright qc hqc]
    · rw [ht]
      obtain ⟨qc, hqc, hqs⟩ := hex
      have : qc ∈ l.filter (fun qc => qc.1.sectionName = s) :=
        List.mem_filter.2 ⟨hqc, by simpa using hqs⟩
      exact List.length_pos.2 (List.ne_nil_of_mem this) |>.ne'
  have pF : pct st.sectionCounts.Foundations = 1 := by
    obtain ⟨x, hx, hp⟩ := hone "Foundations" (Or.inl rfl) hF
    simp only [SectionCounts.get, if_true, Option.some.injEq] at hx
    rw [hx]
    exact hp
  have pA : pct st.sectionCounts.Applied = 1 := by
    obtain ⟨x, hx, hp⟩ := hone "Applied" (Or.inr (Or.inl rfl)) hA
    have hx2 : st.sectionCounts.Applied = x := by
      simpa [SectionCounts.get] using hx
    rw [hx2]
    exact hp
  have pD : pct st.sectionCounts.Advanced = 1 := by
    obtain ⟨x, hx, hp⟩ := hone "Advanced" (Or.inr (Or.inr rfl)) hD
    have hx2 : st.sectionCounts.Advanced = x := by
      simpa [SectionCounts.get] using hx
    rw [hx2]
    exact hp
  have hser : seriesToConsider cfg st.sectionCounts = [] := by
    apply List.eq_nil_iff_forall_not_mem.2
    intro x hx
    rw [mem_seriesToConsider, pF, pA, pD] at hx
    rcases hx with ⟨-, h⟩ | ⟨-, h⟩ | ⟨-, h⟩
    · exact absurd h (not_lt.2 hthr.1)
    · exact absurd h (not_lt.2 hthr.2.1)
    · exact absurd h (not_lt.2 hthr.2.2)
  obtain ⟨v, hv, hprim, hsecn⟩ := recommend_of_needs_nil cfg meta st hnil
  obtain ⟨recs, -, hf3, ha3, hd3, hser3, hsorted, -⟩ := recommend_eq_some cfg meta st v hv
  have hmand := recommend_mandatory cfg meta st v hv
  have hvnone : v.mandatoryAI = none := by
    rw [hmand, if_neg]
    rintro ⟨hc, -, -⟩
    rw [hser3, hser] at hc
    cases hc
  refine ⟨st, hrun, hnil, pF, pA, pD, hser, ⟨v, hv, hprim, hsecn, hvnone⟩,
    finish_isSome cfg meta st (by rw [hnil]; simp), ?_⟩
  intro r hr
  obtain ⟨v2, hv2, hf2, ha2, hd2, hser2, hp, hs, hcon, hman, hfb, -⟩ :=
    finish_eq_some cfg meta st r hr
  rw [hv] at hv2
  cases hv2
  have hcon2 : r.congratulations = true := by
    rw [hcon, hprim, hvnone, hd3, pD]
    simp [hthr.2.2]
  refine ⟨by rw [hf2, hf3, pF], by rw [ha2, ha3, pA], by rw [hd2, hd3, pD],
    by rw [hser2, hser3, hser], by rw [hp, hprim], by rw [hs, hsecn], ?_, hcon2, ?_⟩
  · rw [hman, hcon2, hai]
    simp
  · rw [hfb, hcon2]
    simp

unseal Rat.add Rat.mul Rat.inv in
/-- C11 at the perfect run. -/
theorem perfect_run_congratulates_witness :
    ∃ st, gradeAll sampleConfig resetState perfectRun = .ok st ∧ st.moduleNeeds = [] ∧
      pct st.sectionCounts.Foundations = 1 ∧ pct st.sectionCounts.Applied = 1 ∧
      pct st.sectionCounts.Advanced = 1 ∧
      seriesToConsider sampleConfig st.sectionCounts = [] ∧
      (∃ v, recommend sampleConfig sampleMeta st = some v ∧ v.primaryRecommendations = [] ∧
        v.secondaryRecommendations = [] ∧ v.mandatoryAI = none) ∧
      (sampleMeta.archetypes ≠ [] → ∃ r, finish sampleConfig sampleMeta st = some r) ∧
      ∀ r, finish sampleConfig sampleMeta st = some r →
        r.foundationsPct = 1 ∧ r.appliedPct = 1 ∧ r.advancedPct = 1 ∧
        r.seriesToConsider = [] ∧ r.primaryRecommendations = [] ∧
        r.secondaryRecommendations = [] ∧ r.mandatoryAI = some ⟨11, "AI 101", "AI"⟩ ∧
        r.congratulations = true ∧ r.fallbackPrimary = [] :=
  perfect_run_congratulates sampleConfig sampleMeta perfectRun ⟨11, "AI 101", "AI"⟩
    (by decide) (by decide) (by decide) (by decide) (by decide) (by decide) (by decide)

theorem pct_eq_zero (s : SectionCount) (h : s.correct = 0) : pct s = 0 := by
  unfold pct
  split <;> simp [h]

theorem sum_indicator_eq_length (p : Question × Choice → Bool) (l : List (Question × Choice)) :
    (l.map (fun qc => if p qc = true then (1 : ℚ) else 0)).sum = ((l.filter p).length : ℚ) := by
  induction l with
  | nil => simp
  | cons a rest ih =>
    cases hp : p a
    · simp [List.filter_cons, hp, ih]
    · simp [List.filter_cons, hp, ih]
      ring

/-- An object with distinct keys whose only defined property is `k` has one entry. -/
theorem JsObject.eq_singleton (o : JsObject) (k : Nat) (x : ℚ)
    (hkeys : (o.map Prod.fst).Nodup) (hk : o.get k = some x)
    (hothers : ∀ m, m ≠ k → o.get m = none) : o = [(k, x)] := by
  cases o with
  | nil => simp [JsObject.get] at hk
  | cons e rest =>
    obtain ⟨k1, v1⟩ := e
    have hk1 : k1 = k := by
      by_contra hne
      have := hothers k1 hne
      simp [JsObject.get] at this
    subst hk1
    have hv : v1 = x := by
      simpa [JsObject.get] using hk
    subst hv
    have hrest : rest = [] := by
      apply JsObject.eq_nil_of_get_none
      intro m
      by_contra hne
      obtain ⟨e, he, hem⟩ := (JsObject.get_ne_none_iff rest m).1 hne
      have hnd := List.nodup_cons.1 hkeys
      have hmk : m ≠ k1 := by
        intro hmk
        have hin : e.1 ∈ rest.map Prod.fst := List.mem_map_of_mem Prod.fst he
        rw [hem, hmk] at hin
        exact hnd.1 hin
      have hget := hothers m hmk
      simp only [JsObject.get, if_neg (Ne.symm hmk)] at hget
      exact hne hget
    rw [hrest]

/-- C13: with thresholds 0.7, a cap of three and non-anchor weight 1, after a run with a
Foundations question, all Foundations answers correct, exactly three Applied questions
(non-anchor, tagged with module 2 only) all answered wrongly and no other wrong answer:
`seriesToConsider` has `Advanced` and not `Basic`, `moduleNeeds[2]` is 3, and when module 2
exists with series `Advanced` it is in the primary list, at line 202 and in every result
of `finish`. -/
theorem applied_failure_scenario (cfg : Config) (meta : DataMeta)
    (l : List (Question × Choice))
    (hsec : ∀ qc ∈ l, qc.1.sectionName ∈ sectionNames)
    (hthr : cfg.sectionThresholds.foundations = 7 / 10 ∧
      cfg.sectionThresholds.applied = 7 / 10 ∧ cfg.sectionThresholds.advanced = 7 / 10)
    (hcap : cfg.maxRecommendationsPerSeries = 3)
    (hw : cfg.nonAnchorWeight = 1)
    (hF : ∃ qc ∈ l, qc.1.sectionName = "Foundations")
    (hFright : ∀ qc ∈ l, qc.1.sectionName = "Foundations" → qc.2.isCorrect = true)
    (hA3 : (l.filter (fun qc => qc.1.sectionName = "Applied")).length = 3)
    (hAshape : ∀ qc ∈ l, qc.1.sectionName = "Applied" →
      qc.1.anchor = false ∧ qc.1.tags = [2] ∧ qc.2.isCorrect = false)
    (hother : ∀ qc ∈ l, qc.2.isCorrect = false → qc.1.sectionName = "Applied") :
    ∃ st, gradeAll cfg resetState l = .ok st ∧
      "Advanced" ∈ seriesToConsider cfg st.sectionCounts ∧
      "Basic" ∉ seriesToConsider cfg st.sectionCounts ∧
      st.moduleNeeds.get 2 = some 3 ∧
      ∀ m, moduleMapGet meta.modules 2 = some m → m.series = "Advanced" →
        (∃ v, recommend cfg meta st = some v ∧
          ({ m with score := 3 } : ScoredModule) ∈ v.primaryRecommendations) ∧
        (meta.archetypes ≠ [] → ∃ r, finish cfg meta st = some r) ∧
        ∀ r, finish cfg meta st = some r →
          ({ m with score := 3 } : ScoredModule) ∈ r.primaryRecommendations ∧
          "Advanced" ∈ r.seriesToConsider ∧ "Basic" ∉ r.seriesToConsider := by
  obtain ⟨st, hrun, hcnt, hsum, hnone, hnd⟩ := gradeAll_reset_spec cfg l hsec
  -- Foundations: all correct, at least one question
  have pF : pct st.sectionCounts.Foundations = 1 := by
    obtain ⟨x, hx, ht, hc⟩ := hcnt "Foundations" (Or.inl rfl)
    simp only [SectionCounts.get, if_true, Option.some.injEq] at hx
    rw [hx]
    apply pct_eq_one
    · rw [ht, hc]
      congr 1
      apply List.filter_congr
      intro qc hqc
      by_cases hs : qc.1.sectionName = "Foundations"
      · simp [hs, hFright qc hqc hs]
      · simp [hs]
    · rw [ht]
      obtain ⟨qc, hqc, hqs⟩ := hF
      have : qc ∈ l.filter (fun qc => qc.1.sectionName = "Foundations") :=
        List.mem_filter.2 ⟨hqc, by simpa using hqs⟩
      exact (List.length_pos.2 (List.ne_nil_of_mem this)).ne'
  -- Applied: three questions, none correct
  have pA : pct st.sectionCounts.Applied = 0 := by
    obtain ⟨x, hx, -, hc⟩ := hcnt "Applied" (Or.inr (Or.inl rfl))
    have hx2 : st.sectionCounts.Applied = x := by
      simpa [SectionCounts.get] using hx
    rw [hx2]
    apply pct_eq_zero
    rw [hc, List.length_eq_zero, List.filter_eq_nil_iff]
    intro qc hqc
    by_cases hs : qc.1.sectionName = "Applied"
    · simp [hs, (hAshape qc hqc hs).2.2]
    · simp [hs]
  have hAdv : "Advanced" ∈ seriesToConsider cfg st.sectionCounts := by
    rw [mem_seriesToConsider]
    right
    left
    refine ⟨rfl, ?_⟩
    rw [pA, hthr.2.1]
    norm_num
  have hBasic : "Basic" ∉ seriesToConsider cfg st.sectionCounts := by
    rw [mem_seriesToConsider]
    rintro (⟨-, h⟩ | ⟨h, -⟩ | ⟨h, -⟩)
    · rw [pF, hthr.1] at h
      norm_num at h
    · exact absurd h (by decide)
    · exact absurd h (by decide)
  -- the need of module 2
  have hterm : ∀ qc ∈ l,
      (if qc.2.isCorrect = true then (0 : ℚ) else
        (qc.1.tags.count 2 : ℚ) *
          (if qc.1.anchor = true then cfg.anchorWeight else cfg.nonAnchorWeight))
      = if (decide (qc.1.sectionName = "Applied")) = true then (1 : ℚ) else 0 := by
    intro qc hqc
    cases hc : qc.2.isCorrect
    · have hs := hother qc hqc hc
      obtain ⟨ha, ht, -⟩ := hAshape qc hqc hs
      simp [hs, ha, ht, hw]
    · have hs : qc.1.sectionName ≠ "Applied" := by
        intro hs
        rw [(hAshape qc hqc hs).2.2] at hc
        cases hc
      simp [hs]
  have hneed : orZero (st.moduleNeeds.get 2) = 3 := by
    rw [hsum 2, List.map_congr_left hterm, sum_indicator_eq_length, hA3]
    norm_num
  have hget : st.moduleNeeds.get 2 = some 3 := by
    cases hg : st.moduleNeeds.get 2 with
    | none =>
      rw [hg] at hneed
      simp [orZero] at hneed
    | some x =>
      rw [hg] at hneed
      simp only [orZero] at hneed
      rw [hneed]
  have hothers : ∀ m, m ≠ 2 → st.moduleNeeds.get m = none := by
    intro m hm
    rw [hnone m]
    intro qc hqc hc
    rw [(hAshape qc hqc (hother qc hqc hc)).2.1]
    simpa using hm
  have hneeds : st.moduleNeeds = [(2, 3)] :=
    JsObject.eq_singleton st.moduleNeeds 2 3 hnd hget hothers
  refine ⟨st, hrun, hAdv, hBasic, hget, ?_⟩
  intro m hm hseries
  have hmods : ∀ e ∈ st.moduleNeeds, moduleMapGet meta.modules e.1 ≠ none := by
    intro e he
    rw [hneeds, List.mem_singleton] at he
    rw [he, hm]
    exact fun h => by cases h
  obtain ⟨v, hv⟩ := recommend_isSome cfg meta st hmods
  obtain ⟨h1, -⟩ := recommend_lists cfg meta st v hnd hv
  have hsorted : sortedNeeds st.moduleNeeds = [(2, 3)] := by
    rw [hneeds]
    simp [sortedNeeds, objectEntries, isArrayIndex]
  have hcontains : (seriesToConsider cfg st.sectionCounts).contains
      (if m.series = "AI" then "AI/Specialized" else m.series) = true := by
    rw [hseries]
    simpa using hAdv
  have hprim : v.primaryRecommendations = [({ m with score := 3 } : ScoredModule)] := by
    rw [h1, hsorted, gatedRanking_cons _ _ 2 3 [] m hm, if_pos hcontains, gatedRanking_nil,
      hcap]
    rfl
  have hmem : ({ m with score := 3 } : ScoredModule) ∈ v.primaryRecommendations := by
    rw [hprim]
    exact List.mem_singleton.2 rfl
  refine ⟨⟨v, hv, hmem⟩, finish_isSome cfg meta st hmods, ?_⟩
  intro r hr
  obtain ⟨v2, hv2, -, -, -, hser2, hp, -⟩ := finish_eq_some cfg meta st r hr
  rw [hv] at hv2
  cases hv2
  obtain ⟨recs, -, -, -, -, hser3, -⟩ := recommend_eq_some cfg meta st v hv
  rw [hp, hser2, hser3]
  exact ⟨hmem, hAdv, hBasic⟩

unseal Rat.add Rat.mul Rat.inv in
/-- C13 at `appliedRun` with the sample modules, where module 2 has series `Advanced`. -/
theorem applied_failure_scenario_witness :
    ∃ st, gradeAll sampleConfig resetState appliedRun = .ok st ∧
      "Advanced" ∈ seriesToConsider sampleConfig st.sectionCounts ∧
      "Basic" ∉ seriesToConsider sampleConfig st.sectionCounts ∧
      st.moduleNeeds.get 2 = some 3 ∧
      ∀ m, moduleMapGet sampleMeta.modules 2 = some m → m.series = "Advanced" →
        (∃ v, recommend sampleConfig sampleMeta st = some v ∧
          ({ m with score := 3 } : ScoredModule) ∈ v.primaryRecommendations) ∧
        (sampleMeta.archetypes ≠ [] → ∃ r, finish sampleConfig sampleMeta st = some r) ∧
        ∀ r, finish sampleConfig sampleMeta st = some r →
          ({ m with score := 3 } : ScoredModule) ∈ r.primaryRecommendations ∧
          "Advanced" ∈ r.seriesToConsider ∧ "Basic" ∉ r.seriesToConsider :=
  applied_failure_scenario sampleConfig sampleMeta appliedRun (by decide)
    (by decide) rfl rfl (by decide) (by decide) (by decide) (by decide) (by decide)

end Quiz
